import Mathlib

/-!
# Verification of the gitscribe change-classification and message-synthesis engine

A shallow embedding of the engine implemented in `src/lib/ai-assistant.ts`
(`AICommitAssistant`), the version-control adapter `src/lib/git.ts`
(`GitService.getStagedChanges`) and the CLI result cache (`src/cli/index.ts`).

JavaScript strings are modelled as `List Char` (`Str`); the regular
expressions of the source are modelled by explicit character-level scanners
that follow the backtracking semantics of the concrete patterns used
(documented at each definition).  JavaScript numbers appearing in fractional
threshold comparisons (`0.7`, `0.5`, `0.3`, `0.6`) are modelled as exact
rationals; binary floating-point rounding of these literals is not modelled
(no claim below depends on behaviour exactly at such a threshold).
-/

namespace GitScribe

/-- JavaScript strings, modelled as lists of characters. -/
abbrev Str := List Char

/-- Whitespace for the purposes of `String.prototype.trim` and `\s`
(ASCII subset; the source only meets ASCII whitespace). -/
def isWS (c : Char) : Bool := c = ' ' || c = '\t' || c = '\n' || c = '\r'

/-- `String.prototype.trim`. -/
def trimStr (s : Str) : Str :=
  ((s.dropWhile isWS).reverse.dropWhile isWS).reverse

/-- Auxiliary scanner for `String.prototype.includes`. -/
def strIncludesAux (pat : Str) : Str → Bool
  | [] => pat.isEmpty
  | c :: t => pat.isPrefixOf (c :: t) || strIncludesAux pat t

/-- `hay.includes(pat)`. -/
def strIncludes (hay pat : Str) : Bool := strIncludesAux pat hay

/-- `s.startsWith(p)`. -/
def strStartsWith (s p : Str) : Bool := p.isPrefixOf s

/-- `s.endsWith(p)`. -/
def strEndsWith (s p : Str) : Bool := p.isSuffixOf s

/-- `s.toLowerCase()` (ASCII; the source only compares ASCII letters). -/
def toLowerStr (s : Str) : Str := s.map Char.toLower

/-- Split on a separator character, `s.split(sep)`; always returns at least
one (possibly empty) piece, as in JavaScript. -/
def splitOnCharAux (sep : Char) : Str → Str → List Str
  | acc, [] => [acc.reverse]
  | acc, c :: t =>
    if c = sep then acc.reverse :: splitOnCharAux sep [] t
    else splitOnCharAux sep (c :: acc) t

/-- `s.split(sep)` for a one-character separator. -/
def splitOnChar (sep : Char) (s : Str) : List Str := splitOnCharAux sep [] s

/-- `text.split('\n')`. -/
def splitLines (s : Str) : List Str := splitOnChar '\n' s

/-- `parts.join(sep)` (`Array.prototype.join`). -/
def joinSep (sep : Str) : List Str → Str
  | [] => []
  | [x] => x
  | x :: y :: t => x ++ sep ++ joinSep sep (y :: t)

/-- First-occurrence deduplication with an accumulator of already seen
elements; models the iteration order of a JavaScript `Set`. -/
def dedupAux : List Str → List Str → List Str
  | _, [] => []
  | seen, x :: t => if x ∈ seen then dedupAux seen t else x :: dedupAux (x :: seen) t

/-- `[...new Set(l)]`: first occurrences, in insertion order. -/
def jsSetDedup (l : List Str) : List Str := dedupAux [] l

/-- `JavaScript \w`: `[A-Za-z0-9_]`. -/
def isWordChar (c : Char) : Bool := c.isAlphanum || c = '_'

/-- Decimal rendering of a number used in template literals. -/
def natToStr (n : Nat) : Str := Nat.toDigits 10 n

/-- Strip a case-sensitive literal prefix, returning the remainder. -/
def stripPrefixCS (p s : Str) : Option Str :=
  if p.isPrefixOf s then some (s.drop p.length) else none

/-- Strip a literal prefix case-insensitively (the pattern is given in
lower case), returning the remainder; models an `/i` literal. -/
def stripPrefixCI : Str → Str → Option Str
  | [], s => some s
  | _ :: _, [] => none
  | p :: pt, c :: ct => if Char.toLower c = p then stripPrefixCI pt ct else none

/-- A literal token followed by `\s+`, greedily consumed.  The atom that
follows in every use is not whitespace, so greedy consumption agrees with
backtracking. -/
def skipTokenWS (tok : Str) (s : Str) : Option Str :=
  match stripPrefixCS tok s with
  | some (c :: r) => if isWS c then some ((c :: r).dropWhile isWS) else none
  | some [] => none
  | none => none

/-- An optional token-plus-`\s+` group, as in `(export\s+)?`.  In every use
the token of the group and the atom after the group start with different
letters, so whether the group participates is determined by the input and
no backtracking across the group is possible. -/
def skipOptTokenWS (tok : Str) (s : Str) : Str :=
  match skipTokenWS tok s with
  | some r => r
  | none => s

/-- Generic left-to-right regex scan: try the position matcher on every
suffix, leftmost match wins (models an unanchored `String.prototype.match`). -/
def scanFirst {α : Type} (f : Str → Option α) : Str → Option α
  | [] => f []
  | c :: t =>
    match f (c :: t) with
    | some r => some r
    | none => scanFirst f t

/-- Index of the last character satisfying `p`, if any. -/
def lastIdxOf (p : Char → Bool) (s : Str) : Option Nat :=
  match s.reverse.findIdx? p with
  | none => none
  | some i => some (s.length - 1 - i)

/-- The part of a string `.` can traverse from its start (`.` does not
match line terminators). -/
def noNL (s : Str) : Str := s.takeWhile (fun c => !(c = '\n' || c = '\r'))

/-- JavaScript truthiness of an optional string (both `undefined` and the
empty string are falsy). -/
def optStrTruthy : Option Str → Bool
  | none => false
  | some s => !s.isEmpty

/-! ## Data model (`src/lib/git.ts`, `src/lib/ai-assistant.ts`) -/

/-- `GitDiff`: one staged file with its status code, counted additions and
deletions and raw unified-diff text. -/
structure GitDiff where
  file : Str
  status : Str
  additions : Nat
  deletions : Nat
  diff : Str
deriving DecidableEq, Repr

/-- `StagedChanges`: the full staged snapshot. -/
structure StagedChanges where
  files : List GitDiff
  summary : Str
  hasChanges : Bool
deriving DecidableEq, Repr

/-- The closed set of conventional-commit types
(`CommitMessageSuggestion['type']`). -/
inductive CommitType where
  | feat | fix | refactor | docs | style | test | chore | perf | ci | build
deriving DecidableEq, Repr

/-- The string spelled by each commit type. -/
def CommitType.render : CommitType → Str
  | .feat => "feat".data
  | .fix => "fix".data
  | .refactor => "refactor".data
  | .docs => "docs".data
  | .style => "style".data
  | .test => "test".data
  | .chore => "chore".data
  | .perf => "perf".data
  | .ci => "ci".data
  | .build => "build".data

/-- `CommitMessageSuggestion`.  `confidence` is an exact rational standing
for the JavaScript float. -/
structure CommitMessageSuggestion where
  type : CommitType
  scope : Option Str
  subject : Str
  body : Option Str
  breaking : Bool
  fullMessage : Str
  confidence : ℚ
deriving DecidableEq, Repr

/-! ## Diff feature extractor (`analyzeDiffsInDepth`) -/

/-- The single-quote character (written via its code point to keep the
development free of quote-escape noise). -/
def singleQuote : Char := Char.ofNat 39

/-- The character class `['"']` of the config-key pattern: `'` or `"`. -/
def isQuoteChar (c : Char) : Bool := c = singleQuote || c = '"'

/-- Anchored test `^(export\s+)?(async\s+)?function\s+(\w+)`. -/
def funcDeclTest (content : Str) : Bool :=
  let s1 := skipOptTokenWS ("export".data) content
  let s2 := skipOptTokenWS ("async".data) s1
  match skipTokenWS ("function".data) s2 with
  | some (c :: _) => isWordChar c
  | _ => false

/-- Position matcher for the extraction `function\s+(\w+)`. -/
def matchFunctionAt (s : Str) : Option Str :=
  match skipTokenWS ("function".data) s with
  | some r =>
    let w := r.takeWhile isWordChar
    if w.isEmpty then none else some w
  | none => none

/-- Anchored test `^(export\s+)?const\s+(\w+)\s*=\s*(\(.*\)|async)`. -/
def arrowFuncTest (content : Str) : Bool :=
  let s1 := skipOptTokenWS ("export".data) content
  match skipTokenWS ("const".data) s1 with
  | some r =>
    let w := r.takeWhile isWordChar
    if w.isEmpty then false
    else
      match (r.drop w.length).dropWhile isWS with
      | '=' :: r3 =>
        let r4 := r3.dropWhile isWS
        (match r4 with
         | '(' :: rest => (noNL rest).any (fun c => c = ')')
         | _ => strStartsWith r4 ("async".data))
      | _ => false
  | none => false

/-- Position matcher for the extraction `const\s+(\w+)`. -/
def matchConstAt (s : Str) : Option Str :=
  match skipTokenWS ("const".data) s with
  | some r =>
    let w := r.takeWhile isWordChar
    if w.isEmpty then none else some w
  | none => none

/-- Anchored test `^(export\s+)?class\s+(\w+)`. -/
def classDeclTest (content : Str) : Bool :=
  let s1 := skipOptTokenWS ("export".data) content
  match skipTokenWS ("class".data) s1 with
  | some (c :: _) => isWordChar c
  | _ => false

/-- Position matcher for the extraction `class\s+(\w+)`. -/
def matchClassAt (s : Str) : Option Str :=
  match skipTokenWS ("class".data) s with
  | some r =>
    let w := r.takeWhile isWordChar
    if w.isEmpty then none else some w
  | none => none

/-- `file.file.match(/\.(tsx|jsx)$/)`. -/
def isUIFile (fileName : Str) : Bool :=
  strEndsWith fileName (".tsx".data) || strEndsWith fileName (".jsx".data)

/-- `[A-Z]\w+` at the head of the string: an upper-case letter followed by
at least one word character, captured greedily. -/
def upperIdent : Str → Option Str
  | c :: t =>
    if c.isUpper then
      let w := t.takeWhile isWordChar
      if w.isEmpty then none else some (c :: w)
    else none
  | [] => none

/-- Anchored test `^(export\s+)?(const|function)\s+([A-Z]\w+)`; `const` and
`function` begin with different letters, so the alternation is
deterministic. -/
def componentTest (content : Str) : Bool :=
  let s1 := skipOptTokenWS ("export".data) content
  match skipTokenWS ("const".data) s1 with
  | some r => (upperIdent r).isSome
  | none =>
    match skipTokenWS ("function".data) s1 with
    | some r => (upperIdent r).isSome
    | none => false

/-- Position matcher for the extraction `(?:const|function)\s+([A-Z]\w+)`. -/
def matchComponentAt (s : Str) : Option Str :=
  match skipTokenWS ("const".data) s with
  | some r => upperIdent r
  | none =>
    match skipTokenWS ("function".data) s with
    | some r => upperIdent r
    | none => none

/-- Anchored test `^import\s+.*from`. -/
def importTest (content : Str) : Bool :=
  match skipTokenWS ("import".data) content with
  | some r => strIncludes (noNL r) ("from".data)
  | none => false

/-- Position matcher for `from\s+['"](.+)['"]`: the greedy `(.+)` makes the
closing quote the last quote of the line region, and it must leave at
least one captured character. -/
def matchFromAt (s : Str) : Option Str :=
  match skipTokenWS ("from".data) s with
  | some (q :: rest) =>
    if isQuoteChar q then
      match lastIdxOf isQuoteChar (noNL rest) with
      | some j => if j ≥ 1 then some ((noNL rest).take j) else none
      | none => none
    else none
  | _ => none

/-- `file.file.match(/config|\.json$|\.yaml$|\.env/)`. -/
def isConfigLikeFile (fileName : Str) : Bool :=
  strIncludes fileName ("config".data) || strEndsWith fileName (".json".data)
    || strEndsWith fileName (".yaml".data) || strIncludes fileName (".env".data)

/-- Position matcher for `['"'](\w+)['"']\s*:`. -/
def matchConfigKeyAt (s : Str) : Option Str :=
  match s with
  | q :: rest =>
    if isQuoteChar q then
      let w := rest.takeWhile isWordChar
      if w.isEmpty then none
      else
        match rest.drop w.length with
        | q2 :: r2 =>
          if isQuoteChar q2 then
            match r2.dropWhile isWS with
            | ':' :: _ => some w
            | _ => none
          else none
        | [] => none
    else none
  | [] => none

/-- Position matcher for `<([A-Z]\w+)`. -/
def matchUITagAt (s : Str) : Option Str :=
  match s with
  | '<' :: rest => upperIdent rest
  | _ => none

/-- `file.file.match(/route\.|api\//)`. -/
def isAPILikeFile (fileName : Str) : Bool :=
  strIncludes fileName ("route.".data) || strIncludes fileName ("api/".data)

/-- The HTTP verbs of `\.(get|post|put|patch|delete)\(/i`, with their
upper-cased forms (`match[1].toUpperCase()`). -/
def apiVerbs : List (Str × Str) :=
  [("get".data, "GET".data), ("post".data, "POST".data), ("put".data, "PUT".data),
   ("patch".data, "PATCH".data), ("delete".data, "DELETE".data)]

/-- Try each verb of the alternation at this position (at most one can
match, as no verb is a case-insensitive prefix of another). -/
def findVerb : List (Str × Str) → Str → Option Str
  | [], _ => none
  | (lw, up) :: vs, rest =>
    match stripPrefixCI lw rest with
    | some ('(' :: _) => some up
    | _ => findVerb vs rest

/-- Position matcher for `\.(get|post|put|patch|delete)\(/i`. -/
def matchApiVerbAt (s : Str) : Option Str :=
  match s with
  | '.' :: rest => findVerb apiVerbs rest
  | _ => none

/-- The raw (pre-deduplication) signal accumulators of
`analyzeDiffsInDepth`; each detector pushes in file, line, detector
order. -/
structure DiffSignalsRaw where
  newFunctions : List Str
  newClasses : List Str
  newComponents : List Str
  newImports : List Str
  configChanges : List Str
  uiChanges : List Str
  apiChanges : List Str
deriving DecidableEq, Repr

/-- The empty accumulator. -/
def emptySignals : DiffSignalsRaw := ⟨[], [], [], [], [], [], []⟩

/-- New-function detection: the `function` declaration detector followed by
the `const`-bound arrow detector, both pushing to `newFunctions`. -/
def funcDetect (content : Str) : List Str :=
  (if funcDeclTest content then (scanFirst matchFunctionAt content).toList else [])
    ++ (if arrowFuncTest content then (scanFirst matchConstAt content).toList else [])

/-- New-class detection. -/
def classDetect (content : Str) : List Str :=
  if classDeclTest content then (scanFirst matchClassAt content).toList else []

/-- New-UI-component detection (UI-flavoured files only). -/
def componentDetect (fileName content : Str) : List Str :=
  if isUIFile fileName && componentTest content then
    (scanFirst matchComponentAt content).toList
  else []

/-- New-import detection: the captured module path's first segment is kept
when it is not relative. -/
def importDetect (content : Str) : List Str :=
  if importTest content then
    match scanFirst matchFromAt content with
    | some cap =>
      let pkg := (splitOnChar '/' cap).headD []
      if strStartsWith pkg (".".data) then [] else [pkg]
    | none => []
  else []

/-- Config-key detection (config-flavoured files only). -/
def configDetect (fileName content : Str) : List Str :=
  if isConfigLikeFile fileName then (scanFirst matchConfigKeyAt content).toList else []

/-- UI-tag detection (UI-flavoured files only). -/
def uiTagDetect (fileName content : Str) : List Str :=
  if isUIFile fileName then (scanFirst matchUITagAt content).toList else []

/-- HTTP-verb detection (route/API-flavoured files only). -/
def apiDetect (fileName content : Str) : List Str :=
  if isAPILikeFile fileName then (scanFirst matchApiVerbAt content).toList else []

/-- One diff line of `analyzeDiffsInDepth`: only `+`-prefixed lines are
inspected; the marker character is dropped and the remainder trimmed. -/
def processLine (fileName : Str) (acc : DiffSignalsRaw) (line : Str) : DiffSignalsRaw :=
  if !strStartsWith line ("+".data) then acc
  else
    let content := trimStr (line.drop 1)
    { newFunctions := acc.newFunctions ++ funcDetect content,
      newClasses := acc.newClasses ++ classDetect content,
      newComponents := acc.newComponents ++ componentDetect fileName content,
      newImports := acc.newImports ++ importDetect content,
      configChanges := acc.configChanges ++ configDetect fileName content,
      uiChanges := acc.uiChanges ++ uiTagDetect fileName content,
      apiChanges := acc.apiChanges ++ apiDetect fileName content }

/-- All raw signals of a change set, files in order, lines in order. -/
def rawSignals (changes : StagedChanges) : DiffSignalsRaw :=
  changes.files.foldl (fun acc f => (splitLines f.diff).foldl (processLine f.file) acc)
    emptySignals

/-- `mainPurpose` selection: fixed priority over the raw (pre-cap)
signals, as in the source. -/
def mainPurposeOf (raw : DiffSignalsRaw) : Str :=
  if raw.newComponents.length > 3 then
    "implementing ".data ++ natToStr raw.newComponents.length ++ " new UI components".data
  else if raw.newComponents.length > 0 then
    "adding ".data ++ joinSep (", ".data) (raw.newComponents.take 3) ++ " component".data
      ++ (if raw.newComponents.length > 1 then "s".data else [])
  else if raw.newFunctions.length > 5 then
    "implementing multiple utility functions and helpers".data
  else if raw.newFunctions.length > 0 then
    "adding ".data ++ joinSep (", ".data) (raw.newFunctions.take 3) ++ " function".data
      ++ (if raw.newFunctions.length > 1 then "s".data else [])
  else if raw.newClasses.length > 0 then
    "implementing ".data ++ joinSep (", ".data) raw.newClasses ++ " class".data
      ++ (if raw.newClasses.length > 1 then "es".data else [])
  else if raw.apiChanges.length > 0 then
    "adding ".data ++ joinSep (", ".data) (jsSetDedup raw.apiChanges) ++ " API endpoint".data
      ++ (if raw.apiChanges.length > 1 then "s".data else [])
  else if raw.uiChanges.length > 5 then
    "enhancing UI with multiple component updates".data
  else if raw.configChanges.length > 0 then
    "updating configuration settings".data
  else if raw.newImports.length > 0 then
    "integrating ".data ++ joinSep (" and ".data) ((jsSetDedup raw.newImports).take 2)
      ++ " ".data ++ (if (jsSetDedup raw.newImports).length > 2 then "and other ".data else [])
      ++ "dependencies".data
  else []

/-- The extracted-signal record returned by `analyzeDiffsInDepth`. -/
structure DiffAnalysis where
  newFunctions : List Str
  newClasses : List Str
  newComponents : List Str
  newImports : List Str
  modifiedFunctions : List Str
  configChanges : List Str
  uiChanges : List Str
  apiChanges : List Str
  mainPurpose : Str
deriving DecidableEq, Repr

/-- `analyzeDiffsInDepth`: deduplicate each signal set (JavaScript `Set`,
first-occurrence order) and cap it with `slice`; `modifiedFunctions` is
declared but never pushed to in the source. -/
def analyzeDiffsInDepth (changes : StagedChanges) : DiffAnalysis :=
  let raw := rawSignals changes
  { newFunctions := (jsSetDedup raw.newFunctions).take 5,
    newClasses := (jsSetDedup raw.newClasses).take 3,
    newComponents := (jsSetDedup raw.newComponents).take 5,
    newImports := (jsSetDedup raw.newImports).take 5,
    modifiedFunctions := [],
    configChanges := (jsSetDedup raw.configChanges).take 5,
    uiChanges := (jsSetDedup raw.uiChanges).take 10,
    apiChanges := jsSetDedup raw.apiChanges,
    mainPurpose := mainPurposeOf raw }

/-! ## Change classifier (`analyzeChangesForFallback`) -/

/-- `file.file.includes('.test.') || file.file.includes('.spec.')`. -/
def isTestFile (f : GitDiff) : Bool :=
  strIncludes f.file (".test.".data) || strIncludes f.file (".spec.".data)

/-- `file.file.endsWith('.md')`. -/
def isDocFile (f : GitDiff) : Bool := strEndsWith f.file (".md".data)

/-- The configuration-file predicate of the classifier. -/
def isConfigFileFB (f : GitDiff) : Bool :=
  strIncludes f.file ("package.json".data) || strIncludes f.file ("tsconfig.json".data)
    || strIncludes f.file (".config.".data)

/-- The build-tooling predicate of the classifier. -/
def isBuildFile (f : GitDiff) : Bool :=
  strIncludes f.file ("webpack".data) || strIncludes f.file ("vite".data)
    || strIncludes f.file ("build".data) || strIncludes f.file ("/dist/".data)

/-- The CLI-path predicate of the classifier. -/
def isCLIFile (f : GitDiff) : Bool :=
  strIncludes f.file ("/cli/".data) || strIncludes f.file ("cli-".data)

/-- The UI/component-file predicate of the classifier. -/
def isComponentFile (f : GitDiff) : Bool :=
  strIncludes f.file ("component".data) || strEndsWith f.file (".tsx".data)
    || strEndsWith f.file (".jsx".data)

/-- The API-path predicate of the classifier. -/
def isAPIFile (f : GitDiff) : Bool :=
  strIncludes f.file ("/api/".data) || strIncludes f.file ("route.".data)
    || strIncludes f.file ("controller".data)

/-- The style-file predicate of the classifier. -/
def isStyleFile (f : GitDiff) : Bool :=
  strEndsWith f.file (".css".data) || strEndsWith f.file (".scss".data)
    || strIncludes f.file ("style".data)

/-- The mutable flags and `mainFiles` accumulator of
`analyzeChangesForFallback`'s `forEach` loop. -/
structure FallbackFlags where
  hasTests : Bool
  hasDocs : Bool
  hasConfig : Bool
  hasBuild : Bool
  hasComponents : Bool
  hasAPI : Bool
  hasStyles : Bool
  hasCLI : Bool
  mainFiles : List Str
deriving DecidableEq, Repr

/-- The all-false initial state. -/
def initFlags : FallbackFlags := ⟨false, false, false, false, false, false, false, false, []⟩

/-- The per-file `if`/`else if` chain of `analyzeChangesForFallback`:
each file sets at most one flag (first match) and may push itself onto
`mainFiles`. -/
def processFallbackFile (s : FallbackFlags) (f : GitDiff) : FallbackFlags :=
  if isTestFile f then { s with hasTests := true }
  else if isDocFile f then
    { s with hasDocs := true,
             mainFiles := if f.additions > 10 then s.mainFiles ++ [f.file] else s.mainFiles }
  else if isConfigFileFB f then { s with hasConfig := true }
  else if isBuildFile f then { s with hasBuild := true }
  else if isCLIFile f then { s with hasCLI := true }
  else if isComponentFile f then
    { s with hasComponents := true,
             mainFiles := if f.additions + f.deletions > 20 then s.mainFiles ++ [f.file]
                          else s.mainFiles }
  else if isAPIFile f then { s with hasAPI := true, mainFiles := s.mainFiles ++ [f.file] }
  else if isStyleFile f then { s with hasStyles := true }
  else if f.additions + f.deletions > 30 then { s with mainFiles := s.mainFiles ++ [f.file] }
  else s

/-- The state after the whole `forEach`. -/
def fallbackFlags (changes : StagedChanges) : FallbackFlags :=
  changes.files.foldl processFallbackFile initFlags

/-- Total additions over all files (`changes.files.reduce((sum, f) => sum + f.additions, 0)`). -/
def totalAdditions (changes : StagedChanges) : Nat :=
  (changes.files.map GitDiff.additions).sum

/-- Total deletions over all files. -/
def totalDeletions (changes : StagedChanges) : Nat :=
  (changes.files.map GitDiff.deletions).sum

/-- The decision chain of `analyzeChangesForFallback` (type and category
only; `mainFiles` is carried separately, exactly as in the source where
`type`/`category` are assigned by one `if`/`else` chain). -/
def fallbackTypeCategory (changes : StagedChanges) : CommitType × Str :=
  let fl := fallbackFlags changes
  if fl.hasTests then (.test, "testing".data)
  else if fl.hasDocs && !fl.hasComponents && !fl.hasAPI then (.docs, "documentation".data)
  else if fl.hasConfig && changes.files.length ≤ 3 then (.chore, "configuration".data)
  else if fl.hasBuild || fl.hasCLI then
    (.build, if fl.hasCLI then "cli".data else "build".data)
  else if fl.hasStyles && !fl.hasComponents && !fl.hasAPI then (.style, "styling".data)
  else if fl.hasAPI then
    (if totalAdditions changes > 50 then .feat else .fix, "API".data)
  else if fl.hasComponents then
    (if totalAdditions changes > 50 then .feat else .fix, "components".data)
  else if totalAdditions changes > totalDeletions changes * 2 then (.feat, "features".data)
  else if totalDeletions changes > totalAdditions changes * 2 then
    (.refactor, "refactoring".data)
  else (.fix, "fixes".data)

/-- The classifier's result record. -/
structure FallbackAnalysis where
  type : CommitType
  category : Str
  mainFiles : List Str
deriving DecidableEq, Repr

/-- `analyzeChangesForFallback`. -/
def analyzeChangesForFallback (changes : StagedChanges) : FallbackAnalysis :=
  { type := (fallbackTypeCategory changes).1,
    category := (fallbackTypeCategory changes).2,
    mainFiles := (fallbackFlags changes).mainFiles }

/-! ## Deleted-file analysis (`findCommonWords`, `findCommonPath`,
`analyzeDeletedFiles`) -/

/-- Strip a literal suffix if present (an end-anchored `replace`). -/
def stripSuffixStr (suf s : Str) : Str :=
  if strEndsWith s suf then s.take (s.length - suf.length) else s

/-- The extension alternation of the final file-name `replace`; the
extensions are pairwise suffix-exclusive, so the end-anchored alternation
strips exactly the one that matches. -/
def extList : List Str :=
  [".ts".data, ".tsx".data, ".js".data, ".jsx".data, ".md".data, ".css".data,
   ".scss".data, ".map".data, ".json".data]

/-- `replace(/\.(ts|tsx|js|jsx|md|css|scss|map|json)$/g, '')`. -/
def stripExt (s : Str) : Str :=
  match extList.find? (fun e => strEndsWith s e) with
  | some e => s.take (s.length - e.length)
  | none => s

/-- Maximal alphanumeric runs of a string.  JavaScript's
`split(/[^a-zA-Z0-9]+/)` can additionally yield empty boundary pieces, but
every use filters to words of length above two, so the two agree. -/
def alnumRunsAux : Str → Str → List Str
  | acc, [] => if acc.isEmpty then [] else [acc.reverse]
  | acc, c :: t =>
    if c.isAlphanum then alnumRunsAux (c :: acc) t
    else if acc.isEmpty then alnumRunsAux [] t
    else acc.reverse :: alnumRunsAux [] t

/-- The alphanumeric runs of a string. -/
def alnumRuns (s : Str) : List Str := alnumRunsAux [] s

/-- The words contributed by one file name in `findCommonWords`. -/
def wordsOfFileName (fileName : Str) : List Str :=
  let baseName0 := (splitOnChar '/' fileName).getLast?.getD []
  let baseName := if baseName0.isEmpty then fileName else baseName0
  let cleanName := stripExt (stripSuffixStr (".js.map".data) (stripSuffixStr (".d.ts".data) baseName))
  (alnumRuns cleanName).filter (fun w => w.length > 2)

/-- Insertion-ordered counting map (a JavaScript `Map` of counts):
increment `k` by `d`, appending a fresh entry at the end on first sight. -/
def mapInc : List (Str × Nat) → Str → Nat → List (Str × Nat)
  | [], k, d => [(k, d)]
  | (k0, v0) :: t, k, d =>
    if k0 = k then (k0, v0 + d) :: t else (k0, v0) :: mapInc t k d

/-- Whether a word starts with an upper-case letter (`/^[A-Z]/`). -/
def isUpperStart : Str → Bool
  | c :: _ => c.isUpper
  | [] => false

/-- `/^[A-Z][a-zA-Z0-9]*$/`. -/
def isPascalCaseStar (w : Str) : Bool :=
  match w with
  | c :: t => c.isUpper && t.all Char.isAlphanum
  | [] => false

/-- `/^[A-Z][a-zA-Z0-9]+$/`. -/
def isPascalCasePlus (w : Str) : Bool :=
  match w with
  | c :: t => c.isUpper && !t.isEmpty && t.all Char.isAlphanum
  | [] => false

/-- The `allWords` and `camelCaseWords` maps of `findCommonWords`. -/
def collectWordMaps (fileNames : List Str) : List (Str × Nat) × List (Str × Nat) :=
  fileNames.foldl (fun maps fileName =>
    (wordsOfFileName fileName).foldl (fun m word =>
      (mapInc m.1 word 1,
       if isUpperStart word && word.length > 3 then mapInc m.2 word 2 else m.2)) maps)
    ([], [])

/-- The sort comparator of `findCommonWords` as a strict precedence:
PascalCase words first, then descending count (`sortBefore a b` holds
exactly when the source comparator returns a negative number). -/
def sortBefore (a b : Str × Nat) : Bool :=
  if isPascalCasePlus a.1 && !isPascalCasePlus b.1 then true
  else if !isPascalCasePlus a.1 && isPascalCasePlus b.1 then false
  else b.2 < a.2

/-- Stable insertion for the comparator (ties keep earlier elements
first, as `Array.prototype.sort` is stable). -/
def insertSorted (x : Str × Nat) : List (Str × Nat) → List (Str × Nat)
  | [] => [x]
  | y :: t => if sortBefore x y then x :: y :: t else y :: insertSorted x t

/-- Stable insertion sort realising the stable `Array.prototype.sort`
for the (consistent) comparator above. -/
def stableSortWords (l : List (Str × Nat)) : List (Str × Nat) :=
  l.foldl (fun acc x => insertSorted x acc) []

/-- `Math.max(2, Math.ceil(fileNames.length * 0.3))` with `0.3` exact. -/
def commonWordThreshold (n : Nat) : Nat :=
  max 2 (((n : ℚ) * (3/10)).ceil.toNat)

/-- `findCommonWords`: count words (PascalCase-shaped ones weighted
double), keep those meeting the threshold, sort, return the words. -/
def findCommonWords (fileNames : List Str) : List Str :=
  let maps := collectWordMaps fileNames
  let merged := maps.2.foldl (fun m kv => mapInc m kv.1 kv.2) maps.1
  let threshold := commonWordThreshold fileNames.length
  (stableSortWords (merged.filter (fun kv => kv.2 ≥ threshold))).map Prod.fst

/-- `reduce((min, curr) => curr.length < min.length ? curr : min)` over a
head and tail. -/
def shortestOf (l : List (List Str)) (hd : List Str) : List Str :=
  l.foldl (fun m c => if c.length < m.length then c else m) hd

/-- The agreeing prefix loop of `findCommonPath`: positions `0` to
`shortest.length - 2`, stopping at the first disagreement. -/
def takeAgreeAux (pathParts : List (List Str)) (shortest : List Str) : Nat → Nat → List Str
  | _, 0 => []
  | i, k + 1 =>
    let part := shortest.getD i []
    if pathParts.all (fun p => p.getD i [] = part) then
      part :: takeAgreeAux pathParts shortest (i + 1) k
    else []

/-- `findCommonPath`. -/
def findCommonPath (filePaths : List Str) : Option (List Str) :=
  match filePaths.map (splitOnChar '/') with
  | [] => none
  | q :: qs =>
    let shortest := shortestOf qs q
    let commonParts := takeAgreeAux (q :: qs) shortest 0 (shortest.length - 1)
    if commonParts.isEmpty then none else some commonParts

/-- The fixed deletion content patterns with their descriptions (all
tests case-insensitive). -/
def deletePatternList : List ((Str → Bool) × Str) :=
  [(fun f => strIncludes (toLowerStr f) (".test.".data)
       || strIncludes (toLowerStr f) (".spec.".data), "remove test files".data),
   (fun f => strEndsWith (toLowerStr f) (".md".data), "remove documentation files".data),
   (fun f => strIncludes (toLowerStr f) ("component".data), "remove deprecated components".data),
   (fun f => strIncludes (toLowerStr f) ("backup".data) || strIncludes (toLowerStr f) ("old".data)
       || strIncludes (toLowerStr f) ("deprecated".data)
       || strIncludes (toLowerStr f) ("unused".data), "remove deprecated files".data),
   (fun f => strEndsWith (toLowerStr f) (".css".data)
       || strEndsWith (toLowerStr f) (".scss".data), "remove style files".data),
   (fun f => strIncludes (toLowerStr f) ("config".data), "remove configuration files".data)]

/-- First pattern covering more than half of the non-generated files
(`matchCount > nonGeneratedFiles.length * 0.5`, `0.5` exact). -/
def findDeletePattern (nonGen : List Str) : List ((Str → Bool) × Str) → Option Str
  | [] => none
  | (p, desc) :: rest =>
    if ((nonGen.filter p).length : ℚ) > (nonGen.length : ℚ) * (1/2) ∧ 0 < nonGen.length then
      some (desc ++ " and generated assets".data)
    else findDeletePattern nonGen rest

/-- `analyzeDeletedFiles`: although typed `string | null` in the source,
every control path returns a string. -/
def analyzeDeletedFiles (deletedFiles : List GitDiff) : Str :=
  let fileNames := deletedFiles.map GitDiff.file
  let commonWords := findCommonWords fileNames
  let step1 : Option Str :=
    match commonWords with
    | mainWord :: _ =>
      if !mainWord.isEmpty && mainWord.length > 3 then
        let isClass := fileNames.any (fun f =>
          strIncludes f (".d.ts".data) || strIncludes f ("class".data))
        some (if isPascalCaseStar mainWord && isClass then
                "remove deprecated ".data ++ mainWord ++ " class and related assets".data
              else if isPascalCaseStar mainWord then
                "remove ".data ++ mainWord ++ " component and related files".data
              else
                "remove ".data ++ mainWord ++ "-related files and assets".data)
      else none
    | [] => none
  match step1 with
  | some r => r
  | none =>
    let fileNames := deletedFiles.map GitDiff.file
    let step2 : Option Str :=
      match findCommonPath fileNames with
      | some commonPaths =>
        if commonPaths.length > 1 then
          some ("remove ".data ++ (commonPaths.getLast?.getD [])
            ++ " module and related files".data)
        else none
      | none => none
    match step2 with
    | some r => r
    | none =>
      let nonGen := fileNames.filter (fun f =>
        !(strEndsWith f (".d.ts".data)) && !(strEndsWith f (".map".data)))
      match findDeletePattern nonGen deletePatternList with
      | some r => r
      | none => "remove unused files (".data ++ natToStr deletedFiles.length ++ " files)".data

/-! ## Heuristic summarizer (`generateSmartSubject`, `generateSmartBody`,
`generateSmartScope`, `generateFallbackSuggestions`) -/

/-- The extension alternation of the single-file stem `replace`. -/
def subjectExtList : List Str :=
  [".ts".data, ".tsx".data, ".js".data, ".jsx".data, ".md".data]

/-- `file.file.split('/').pop()?.replace(/\.(ts|tsx|js|jsx|md)$/, '') || file.file`. -/
def subjectStem (f : GitDiff) : Str :=
  let base := (splitOnChar '/' f.file).getLast?.getD []
  let stem :=
    match subjectExtList.find? (fun e => strEndsWith base e) with
    | some e => base.take (base.length - e.length)
    | none => base
  if stem.isEmpty then f.file else stem

/-- The multi-file subject chain after the deletion special case:
`mainPurpose`, then the category templates, then the magnitude fallback. -/
def multiFileSubjectRest (changes : StagedChanges) (analysis : FallbackAnalysis)
    (da : DiffAnalysis) : Str :=
  let fileCount := changes.files.length
  if !da.mainPurpose.isEmpty then da.mainPurpose
  else if analysis.category = "documentation".data then
    "update documentation (".data ++ natToStr fileCount ++ " files)".data
  else if analysis.category = "testing".data then
    "update tests (".data ++ natToStr fileCount ++ " files)".data
  else if analysis.category = "configuration".data then "update configuration files".data
  else if analysis.category = "API".data then "update API endpoints and handlers".data
  else if analysis.category = "components".data then
    "update UI components (".data ++ natToStr fileCount ++ " files)".data
  else if analysis.category = "styling".data then "update styles and formatting".data
  else
    let additions := totalAdditions changes
    let deletions := totalDeletions changes
    if additions > deletions * 2 then
      "add new functionality (".data ++ natToStr fileCount ++ " files)".data
    else if deletions > additions * 2 then
      "refactor and cleanup (".data ++ natToStr fileCount ++ " files)".data
    else "update multiple files (".data ++ natToStr fileCount ++ " changes)".data

/-- `generateSmartSubject`.  The deletion threshold `0.7` is exact. -/
def generateSmartSubject (changes : StagedChanges) (analysis : FallbackAnalysis)
    (da : DiffAnalysis) : Str :=
  match changes.files with
  | [f] =>
    if !da.mainPurpose.isEmpty then da.mainPurpose
    else if f.status = "A".data then "add ".data ++ subjectStem f
    else if f.status = "D".data then "remove ".data ++ subjectStem f
    else "update ".data ++ subjectStem f
  | _ =>
    let fileCount := changes.files.length
    let deletedFiles := changes.files.filter (fun f => f.status = "D".data)
    if (deletedFiles.length : ℚ) > (fileCount : ℚ) * (7/10) then
      let deletionAnalysis := analyzeDeletedFiles deletedFiles
      if !deletionAnalysis.isEmpty then deletionAnalysis
      else multiFileSubjectRest changes analysis da
    else multiFileSubjectRest changes analysis da

/-- `${n > 1 ? 's' : ''}`. -/
def pluralS (n : Nat) : Str := if n > 1 then "s".data else []

/-- `analyzeDeletedFilesForBody`. -/
def analyzeDeletedFilesForBody (deletedFiles : List GitDiff) : List Str :=
  let fileNames := deletedFiles.map GitDiff.file
  let typeDefinitions := fileNames.filter (fun f => strEndsWith f (".d.ts".data))
  let sourceMaps := fileNames.filter (fun f => strEndsWith f (".map".data))
  let jsFiles := fileNames.filter (fun f =>
    (strEndsWith f (".js".data) || strEndsWith f (".ts".data) || strEndsWith f (".tsx".data)
      || strEndsWith f (".jsx".data)) && !(strEndsWith f (".d.ts".data)))
  let docFiles := fileNames.filter (fun f => strEndsWith f (".md".data))
  let testFiles := fileNames.filter (fun f =>
    strIncludes f (".test.".data) || strIncludes f (".spec.".data))
  let commonWords := findCommonWords fileNames
  let goodEntity :=
    match commonWords.head? with
    | some w => !w.isEmpty && w.length > 3
    | none => false
  if goodEntity then
    let w := commonWords.headD []
    let isPascalCase := isPascalCaseStar w
    let isClass := fileNames.any (fun f => strIncludes f (".d.ts".data))
    let fileTypes : List Str :=
      (if jsFiles.length > 0 then [".js/.ts".data] else [])
        ++ (if typeDefinitions.length > 0 then [".d.ts".data] else [])
        ++ (if sourceMaps.length > 0 then ["source maps".data] else [])
    let firstBullet :=
      if isPascalCase && isClass then
        "- Removed the unused `".data ++ w ++ "` class and its corresponding ".data
          ++ joinSep (", ".data) fileTypes ++ " files".data
      else if isPascalCase then
        "- Removed the `".data ++ w ++ "` component and its associated ".data
          ++ joinSep (", ".data) fileTypes ++ " files".data
      else
        "- Removed ".data ++ w ++ "-related implementation files (".data
          ++ joinSep (", ".data) fileTypes ++ ")".data
    [firstBullet]
      ++ (if typeDefinitions.length > 0 || sourceMaps.length > 0 then
        ["- Cleaned up associated imports and dependencies related to the removed functionality".data]
        else [])
      ++ (if docFiles.length > 0 then
        ["- Removed documentation files for the deprecated ".data ++ w ++ " functionality".data]
        else [])
  else
    let descriptions : List Str :=
      (if jsFiles.length > 0 then
        [natToStr jsFiles.length ++ " source file".data ++ pluralS jsFiles.length] else [])
        ++ (if typeDefinitions.length > 0 then
          [natToStr typeDefinitions.length ++ " type definition".data
            ++ pluralS typeDefinitions.length] else [])
        ++ (if sourceMaps.length > 0 then
          [natToStr sourceMaps.length ++ " source map".data ++ pluralS sourceMaps.length]
          else [])
    (if descriptions.length > 0 then
      ["- Removed unused files: ".data ++ joinSep (", ".data) descriptions] else [])
      ++ (if docFiles.length > 0 then
        ["- Cleaned up ".data ++ natToStr docFiles.length ++ " documentation file".data
          ++ pluralS docFiles.length] else [])
      ++ (if testFiles.length > 0 then
        ["- Removed ".data ++ natToStr testFiles.length ++ " test file".data
          ++ pluralS testFiles.length] else [])

/-- `generateWhyItMatters`. -/
def generateWhyItMatters (category : Str) (da : DiffAnalysis) : Str :=
  if category = "components".data || da.newComponents.length > 0 then
    "Type: feat | Confidence: 85%".data
  else if category = "API".data || da.apiChanges.length > 0 then
    "Type: feat | Confidence: 90%".data
  else if category = "testing".data then "Type: test | Confidence: 95%".data
  else if category = "documentation".data then "Type: docs | Confidence: 95%".data
  else if category = "configuration".data then "Type: chore | Confidence: 90%".data
  else if da.newClasses.length > 0 || da.newFunctions.length > 0 then
    "Type: feat | Confidence: 85%".data
  else []

/-- `generateSmartBody`: `undefined` for at most one file, otherwise the
bullet list (signal bullets, else file-status bullets, a totals line and
an optional annotation line). -/
def generateSmartBody (changes : StagedChanges) (analysis : FallbackAnalysis)
    (da : DiffAnalysis) : Option Str :=
  if changes.files.length ≤ 1 then none
  else
    let bullets1 : List Str :=
      (if da.newComponents.length > 0 then
        ["- Implemented new components: ".data ++ joinSep (", ".data) (da.newComponents.take 3)
          ++ (if da.newComponents.length > 3 then
                " and ".data ++ natToStr (da.newComponents.length - 3) ++ " more".data
              else [])] else [])
      ++ (if da.newClasses.length > 0 then
        ["- Added ".data ++ joinSep (", ".data) da.newClasses ++ " class".data
          ++ (if da.newClasses.length > 1 then "es".data else [])
          ++ " for improved architecture".data] else [])
      ++ (if da.newFunctions.length > 0 && da.newComponents.length = 0 then
        ["- Implemented helper functions: ".data ++ joinSep (", ".data) (da.newFunctions.take 3)
          ++ (if da.newFunctions.length > 3 then
                " and ".data ++ natToStr (da.newFunctions.length - 3) ++ " more utilities".data
              else [])] else [])
      ++ (if da.newImports.length > 0 then
        ["- Integrated new dependencies: ".data ++ joinSep (", ".data) (da.newImports.take 3)
          ++ (if da.newImports.length > 3 then
                " and ".data ++ natToStr (da.newImports.length - 3) ++ " others".data
              else [])] else [])
      ++ (if da.configChanges.length > 0 then
        ["- Updated configuration settings for ".data
          ++ joinSep (", ".data) (da.configChanges.take 3)] else [])
      ++ (if da.apiChanges.length > 0 then
        ["- Added ".data ++ joinSep (", ".data) da.apiChanges ++ " API endpoint".data
          ++ pluralS da.apiChanges.length] else [])
      ++ (if da.uiChanges.length > 5 && da.newComponents.length = 0 then
        ["- Enhanced UI with ".data ++ natToStr da.uiChanges.length ++ " component updates".data]
        else [])
    let added := changes.files.filter (fun f => f.status = "A".data)
    let modified := changes.files.filter (fun f => f.status = "M".data)
    let deleted := changes.files.filter (fun f => f.status = "D".data)
    let bullets2 : List Str :=
      if bullets1.length = 0 then
        (if deleted.length > 0 then
          (let deletedAnalysis := analyzeDeletedFilesForBody deleted
           if deletedAnalysis.length > 0 then deletedAnalysis
           else if deleted.length ≤ 3 then
             ["- Removed: ".data ++ joinSep (", ".data)
               (deleted.map (fun f => (splitOnChar '/' f.file).getLast?.getD []))]
           else ["- Removed ".data ++ natToStr deleted.length ++ " files".data])
         else [])
        ++ (if added.length > 0 then
          (if added.length ≤ 3 then
            ["- Added: ".data ++ joinSep (", ".data)
              (added.map (fun f => (splitOnChar '/' f.file).getLast?.getD []))]
          else ["- Added ".data ++ natToStr added.length ++ " new files".data]) else [])
        ++ (if modified.length > 0 then
          (if modified.length ≤ 3 then
            ["- Modified: ".data ++ joinSep (", ".data)
              (modified.map (fun f => (splitOnChar '/' f.file).getLast?.getD []))]
          else ["- Modified ".data ++ natToStr modified.length ++ " existing files".data])
          else [])
      else
        let fileParts : List Str :=
          (if added.length > 0 then [natToStr added.length ++ " added".data] else [])
            ++ (if modified.length > 0 then [natToStr modified.length ++ " modified".data] else [])
            ++ (if deleted.length > 0 then [natToStr deleted.length ++ " deleted".data] else [])
        if fileParts.length > 0 then ["- Files: ".data ++ joinSep (", ".data) fileParts] else []
    let totalsBullet := "- Total: +".data ++ natToStr (totalAdditions changes) ++ " -".data
      ++ natToStr (totalDeletions changes) ++ " lines".data
    let why := generateWhyItMatters analysis.category da
    let bullets := bullets1 ++ bullets2 ++ [totalsBullet]
      ++ (if !why.isEmpty then ["\n   ".data ++ why] else [])
    if bullets.length > 0 then some (joinSep ("\n".data) bullets) else none

/-- `findMostCommon`: first key (in insertion order) holding the maximal
count; only a strictly greater count displaces the current best, and an
empty best is `undefined`.  (JavaScript object iteration would visit
integer-like keys first; directory names are not modelled as such.) -/
def findMostCommon (strings : List Str) : Option Str :=
  let counts := strings.foldl (fun m s => mapInc m s 1) []
  let best := counts.foldl (fun (b : Str × Nat) kv => if kv.2 > b.2 then kv else b) ([], 0)
  if best.1.isEmpty then none else some best.1

/-- The more-than-60%-lib check ending `generateSmartScope` (`0.6` exact). -/
def scopeLibCheck (changes : StagedChanges) : Option Str :=
  let libFiles := (changes.files.filter (fun f =>
    strIncludes f.file ("/lib/".data) || strStartsWith f.file ("lib/".data))).length
  if (libFiles : ℚ) > (changes.files.length : ℚ) * (6/10) then some ("lib".data) else none

/-- `generateSmartScope`. -/
def generateSmartScope (changes : StagedChanges) (analysis : FallbackAnalysis) : Option Str :=
  if analysis.category = "API".data then some ("api".data)
  else if analysis.category = "components".data then some ("ui".data)
  else if analysis.category = "testing".data then some ("tests".data)
  else if analysis.category = "cli".data then some ("cli".data)
  else if analysis.category = "build".data then some ("build".data)
  else
    let directories := ((changes.files.map (fun f => splitOnChar '/' f.file)).filter
      (fun parts => parts.length > 1)).map (fun parts => parts.getD (parts.length - 2) [])
    match findMostCommon directories with
    | some d =>
      if d.length > 1 && d ≠ "src".data && d ≠ "lib".data then some d
      else scopeLibCheck changes
    | none => scopeLibCheck changes

/-- `generateFallbackSuggestions`: the heuristic path; exactly one
suggestion, confidence `0.85`, never breaking.  The message template is
the source's inline literal (note: no breaking marker segment). -/
def generateFallbackSuggestions (changes : StagedChanges) : List CommitMessageSuggestion :=
  let analysis := analyzeChangesForFallback changes
  let diffAnalysis := analyzeDiffsInDepth changes
  let subject := generateSmartSubject changes analysis diffAnalysis
  let body := generateSmartBody changes analysis diffAnalysis
  let scope := generateSmartScope changes analysis
  let fullMessage := analysis.type.render
    ++ (match scope with
        | some s => if s.isEmpty then [] else ('(' :: s) ++ [')']
        | none => [])
    ++ (':' :: ' ' :: subject)
    ++ (match body with
        | some b => if b.isEmpty then [] else ('\n' :: '\n' :: b)
        | none => [])
  [{ type := analysis.type, scope := scope, subject := subject, body := body,
     breaking := false, fullMessage := fullMessage, confidence := (85 : ℚ)/100 }]

/-! ## Generative response parser (`parseAIResponse`) -/

/-- A commit header accepted by
`^(feat|fix|refactor|docs|style|test|chore|perf|ci|build)(\(([^)]+)\))?(!)?:\s*(.+)$/i`;
`subject` already carries the subsequent `.trim()` of the source. -/
structure HeaderMatch where
  type : CommitType
  scope : Option Str
  hasBang : Bool
  subject : Str
deriving DecidableEq, Repr

/-- The type alternation; no alternative is a case-insensitive prefix of
another, so the first prefix match is the only possible one. -/
def commitTypeStrs : List (CommitType × Str) :=
  [(.feat, "feat".data), (.fix, "fix".data), (.refactor, "refactor".data),
   (.docs, "docs".data), (.style, "style".data), (.test, "test".data),
   (.chore, "chore".data), (.perf, "perf".data), (.ci, "ci".data), (.build, "build".data)]

/-- Find the commit type whose spelling starts the line
(case-insensitively), returning it with the remainder. -/
def findTypePrefix : List (CommitType × Str) → Str → Option (CommitType × Str)
  | [], _ => none
  | (t, p) :: rest, line =>
    match stripPrefixCI p line with
    | some r => some (t, r)
    | none => findTypePrefix rest line

/-- The `\s*(.+)$` subject part after the colon.  The greedy `\s*` and
`(.+)` leave the remainder with its whitespace prefix stripped, which
must be non-empty and free of line terminators (`.` does not cross them
and `$` only matches at the very end); when the remainder is all
whitespace the backtracked capture is its final character, which must
not be a line terminator.  Composed with the source's `.trim()`, the
subject is the trimmed remainder in every successful case. -/
def headerSubject (t : CommitType) (scope : Option Str) (hasB : Bool) (r2 : Str) :
    Option HeaderMatch :=
  match r2.dropWhile isWS with
  | [] =>
    (match r2.getLast? with
     | some c => if c = ' ' || c = '\t' then some ⟨t, scope, hasB, []⟩ else none
     | none => none)
  | d =>
    if d.any (fun c => c = '\n' || c = '\r') then none
    else some ⟨t, scope, hasB, trimStr r2⟩

/-- The `(!)?:` tail of the header pattern: an optional breaking marker
followed by the colon and the subject part (a marker not followed by a
colon fails, as the regex then has no way to place the colon). -/
def matchHeaderTail (t : CommitType) (scope : Option Str) : Str → Option HeaderMatch
  | '!' :: ':' :: r2 => headerSubject t scope true r2
  | ':' :: r2 => headerSubject t scope false r2
  | _ => none

/-- The commit-header grammar of the parser.  The scope group `([^)]+)`
cannot contain the closing parenthesis, so a present scope extends to the
first `)`; a failed tail cannot be rescued by dropping the scope group,
since the `(` then stops the `(!)?:` part. -/
def matchHeader (line : Str) : Option HeaderMatch :=
  match findTypePrefix commitTypeStrs line with
  | none => none
  | some (t, rest) =>
    match rest with
    | '(' :: r2 =>
      (match r2.findIdx? (fun c => c = ')') with
       | some j =>
         if j = 0 then none
         else matchHeaderTail t (some (r2.take j)) (r2.drop (j + 1))
       | none => none)
    | _ => matchHeaderTail t none rest

/-- The placeholder/meta filter applied to a matched header line. -/
def isMetaCommentary (line subj : Str) : Bool :=
  strIncludes subj ("type(scope)".data) || strIncludes subj ("brief description".data)
    || strIncludes subj ("what was accomplished".data)
    || strIncludes (toLowerStr line) ("description:".data)
    || subj = "improvements".data || subj = "updates".data

/-- The instruction-leakage filter applied to candidate body lines. -/
def isInstructionLine (line : Str) : Bool :=
  strIncludes (toLowerStr line) ("commit message".data)
    || strIncludes (toLowerStr line) ("example".data)
    || strIncludes (toLowerStr line) ("format".data)
    || strIncludes (toLowerStr line) ("generate".data)
    || strIncludes line ("Type:".data)
    || strIncludes line ("Scope:".data)
    || strIncludes line ("Description:".data)
    || strIncludes (toLowerStr line) ("what specific improvements".data)
    || strIncludes (toLowerStr line) ("why these changes".data)
    || strIncludes (toLowerStr line) ("key files or components".data)
    || strIncludes (toLowerStr line) ("focus on".data)

/-- The instruction-echo stop markers. -/
def stopMarkers : List Str :=
  ["Generate a conventional commit".data, "IMPORTANT:".data, "Good example format:".data,
   "Bad example (DO NOT DO THIS):".data, "First line: type(scope):".data,
   "Format: type(scope):".data, "Commit message:".data,
   "Body (required for multi-file changes):".data,
   "Focus on the MEANING and PURPOSE".data]

/-- The header part of the fixed message template: `type(scope)!: subject`
with the scope and breaking marker present only when set (JavaScript
truthiness: an empty scope renders nothing). -/
def renderHeader (t : CommitType) (scope : Option Str) (brk : Bool) (subject : Str) : Str :=
  t.render
    ++ (match scope with
        | some s => if s.isEmpty then [] else ('(' :: s) ++ [')']
        | none => [])
    ++ (if brk then ['!'] else [])
    ++ (':' :: ' ' :: subject)

/-- The complete template `type(scope)!: subject\n\nbody`, with the body
block present only when the body is a non-empty string. -/
def renderFullMessage (t : CommitType) (scope : Option Str) (brk : Bool) (subject : Str)
    (body : Option Str) : Str :=
  renderHeader t scope brk subject
    ++ (match body with
        | some b => if b.isEmpty then [] else ('\n' :: '\n' :: b)
        | none => [])

/-- An open (not yet emitted) suggestion of the parse loop. -/
structure OpenSuggestion where
  type : CommitType
  scope : Option Str
  subject : Str
  breaking : Bool
deriving DecidableEq, Repr

/-- Closing an open suggestion: the `type && subject` truthiness guard
discards an empty subject; otherwise body lines are joined and trimmed
and the message template rendered, at confidence `0.9`. -/
def closeCurrent (cur : OpenSuggestion) (bodyLines : List Str) : Option CommitMessageSuggestion :=
  if cur.subject.isEmpty then none
  else
    let body : Option Str :=
      if bodyLines.isEmpty then none else some (trimStr (joinSep ("\n".data) bodyLines))
    some { type := cur.type, scope := cur.scope, subject := cur.subject, body := body,
           breaking := cur.breaking,
           fullMessage := renderFullMessage cur.type cur.scope cur.breaking cur.subject body,
           confidence := (9 : ℚ)/10 }

/-- The scan state of `parseAIResponse`. -/
structure ParseState where
  suggestions : List CommitMessageSuggestion
  current : Option OpenSuggestion
  bodyLines : List Str
deriving DecidableEq, Repr

/-- One line of the scan loop, on the already-trimmed line: empty lines
are skipped; a non-meta header closes any open suggestion and opens a
new one (the captured scope is trimmed, the breaking flag also set by a
literal `BREAKING CHANGE` in the line); any other line extends the open
suggestion's body unless it looks like instruction leakage. -/
def parseStepTrimmed (st : ParseState) (line : Str) : ParseState :=
  if line.isEmpty then st
  else
    match matchHeader line with
    | some h =>
      if isMetaCommentary line h.subject then st
      else
        { suggestions :=
            match st.current with
            | some cur =>
              (match closeCurrent cur st.bodyLines with
               | some sg => st.suggestions ++ [sg]
               | none => st.suggestions)
            | none => st.suggestions,
          current := some { type := h.type, scope := h.scope.map trimStr,
                            subject := h.subject,
                            breaking := h.hasBang || strIncludes line ("BREAKING CHANGE".data) },
          bodyLines := [] }
    | none =>
      match st.current with
      | some _ =>
        if isInstructionLine line then st
        else { st with bodyLines := st.bodyLines ++ [line] }
      | none => st

/-- One line of the scan loop (`const line = relevantLines[i].trim()`). -/
def parseStep (st : ParseState) (rawLine : Str) : ParseState :=
  parseStepTrimmed st (trimStr rawLine)

/-- Index of the first instruction-echo line (the list's length when
there is none, matching `findIdx`). -/
def stopIndex (lines : List Str) : Nat :=
  lines.findIdx (fun l => stopMarkers.any (fun m => strIncludes (trimStr l) m))

/-- All suggestions discovered by the scan, in discovery order (before
the final `slice(0, 2)`); the still-open suggestion is closed at the
end. -/
def parseAIResponseAll (text : Str) : List CommitMessageSuggestion :=
  let lines := splitLines text
  let relevant := lines.take (stopIndex lines)
  let final := relevant.foldl parseStep ⟨[], none, []⟩
  final.suggestions
    ++ (match final.current with
        | some cur => (closeCurrent cur final.bodyLines).toList
        | none => [])

/-- `parseAIResponse` (its `changes` parameter is unused in the source and
omitted here): `suggestions.slice(0, 2)`. -/
def parseAIResponse (text : Str) : List CommitMessageSuggestion :=
  (parseAIResponseAll text).take 2

/-! ## Suggestion orchestrator (`generateCommitMessage`) -/

/-- The guarded generative block: `loadOk` is whether `loadModel` left the
model loaded (a load failure is caught inside `loadModel` and merely
leaves the flag false, skipping the block); `call` is the awaited,
timeout-raced generative call, whose rejection (including the timeout
rejection of `withTimeout`) re-raises inside the block. -/
def generativePath (loadOk : Bool) (call : Except Str Str) :
    Except Str (Option (List CommitMessageSuggestion)) :=
  if loadOk then
    match call with
    | .error e => .error e
    | .ok text =>
      let s := parseAIResponse text
      if s.length > 0 then .ok (some s) else .ok none
  else .ok none

/-- `generateCommitMessage`: the orchestrator.  `skipAI` is the explicit
escape hatch (`AI_COMMIT_SKIP_AI === 'true'` or the `'none'` model
sentinel); the `try`/`catch` around the generative block converts every
generative exception into the heuristic fallback, as do a skipped block
and an empty parse. -/
def generateCommitMessage (changes : StagedChanges) (skipAI loadOk : Bool)
    (call : Except Str Str) : List CommitMessageSuggestion :=
  if skipAI then generateFallbackSuggestions changes
  else
    match generativePath loadOk call with
    | .error _ => generateFallbackSuggestions changes
    | .ok (some s) => s
    | .ok none => generateFallbackSuggestions changes

/-! ## Version-control adapter (`GitService.getStagedChanges`,
current `src/lib/git.ts`) -/

/-- One entry of the `simple-git` status file list. -/
structure GitStatusFile where
  path : Str
  index : Str
deriving DecidableEq, Repr

/-- The `simple-git` status result consumed by `getStagedChanges`. -/
structure GitStatus where
  staged : List Str
  files : List GitStatusFile
deriving DecidableEq, Repr

/-- `status.files.find(f => f.path === file)`. -/
def findStatusFile (files : List GitStatusFile) (file : Str) : Option GitStatusFile :=
  files.find? (fun f => f.path = file)

/-- `fileStatus?.index || 'M'`. -/
def indexOrM (fs : Option GitStatusFile) : Str :=
  match fs with
  | some f => if f.index.isEmpty then "M".data else f.index
  | none => "M".data

/-- `diff.split('\n').filter(line => line.startsWith(marker)).length`. -/
def countPrefixed (marker : Char) (diff : Str) : Nat :=
  ((splitLines diff).filter (fun l => strStartsWith l [marker])).length

/-- The per-file loop of `getStagedChanges`: a successful diff query
yields a counted entry; a failed one degrades to a zero-stat placeholder
when the file appears in the status file list, and is dropped otherwise. -/
def collectDiffs (st : GitStatus) (diffOf : Str → Except Str Str) : List Str → List GitDiff
  | [] => []
  | file :: rest =>
    (match diffOf file with
     | .ok diff =>
       [{ file := file, status := indexOrM (findStatusFile st.files file),
          additions := countPrefixed '+' diff, deletions := countPrefixed '-' diff,
          diff := diff }]
     | .error _ =>
       (match findStatusFile st.files file with
        | some fs =>
          [{ file := file, status := if fs.index.isEmpty then "M".data else fs.index,
             additions := 0, deletions := 0,
             diff := "// Unable to retrieve diff for ".data ++ file }]
        | none => []))
      ++ collectDiffs st diffOf rest

/-- `getStagedChanges`, over an abstract backend consisting of the status
query result and the per-file `git diff --cached` query. -/
def getStagedChanges (status : Except Str GitStatus) (diffOf : Str → Except Str Str) :
    Except Str StagedChanges :=
  match status with
  | .error e => .error ("Failed to get staged changes: ".data ++ e)
  | .ok st =>
    if st.staged.length = 0 then
      .ok { files := [], summary := "No staged changes found".data, hasChanges := false }
    else
      let diffs := collectDiffs st diffOf st.staged
      .ok { files := diffs,
            summary := natToStr diffs.length ++ " file(s) changed, ".data
              ++ natToStr ((diffs.map GitDiff.additions).sum) ++ " insertions(+), ".data
              ++ natToStr ((diffs.map GitDiff.deletions).sum) ++ " deletions(-)".data,
            hasChanges := true }

/-! ## CLI result cache (`CLI.loadCache`, `CLI.commit`) -/

/-- A persisted result-cache entry (`.ai-commit-cache.json`). -/
structure CacheEntry where
  suggestions : List CommitMessageSuggestion
  changesSummary : Str
  timestamp : Int
deriving DecidableEq, Repr

/-- `loadCache`: the stored entry (already `none` when the cache file is
missing or unparseable) survives only strictly below the five-minute age
bound. -/
def loadCache (stored : Option CacheEntry) (now : Int) : Option CacheEntry :=
  match stored with
  | none => none
  | some c => if now - c.timestamp < 5 * 60 * 1000 then some c else none

/-- The suggestion-sourcing step of `CLI.commit`: reuse the cached
suggestions only when the entry survived `loadCache`, its stored summary
equals the current change summary and it is non-empty; otherwise generate
fresh suggestions.  The boolean records whether the cache was used. -/
def commitSuggestionSource (stored : Option CacheEntry) (now : Int) (changes : StagedChanges)
    (skipAI loadOk : Bool) (call : Except Str Str) : List CommitMessageSuggestion × Bool :=
  match loadCache stored now with
  | some c =>
    if c.changesSummary = changes.summary && c.suggestions.length > 0 then (c.suggestions, true)
    else (generateCommitMessage changes skipAI loadOk call, false)
  | none => (generateCommitMessage changes skipAI loadOk call, false)

/-! ## Per-file classifier predicates (the first-match bucket of each
file in the `forEach` chain, used to characterise the fold) -/

/-- Bucket predicate: test files (rule position 1). -/
def testFlagP (f : GitDiff) : Bool := isTestFile f

/-- Bucket predicate: documentation files (position 2). -/
def docsFlagP (f : GitDiff) : Bool := !isTestFile f && isDocFile f

/-- Bucket predicate: configuration files (position 3). -/
def configFlagP (f : GitDiff) : Bool := !isTestFile f && !isDocFile f && isConfigFileFB f

/-- Bucket predicate: build files (position 4). -/
def buildFlagP (f : GitDiff) : Bool :=
  !isTestFile f && !isDocFile f && !isConfigFileFB f && isBuildFile f

/-- Bucket predicate: CLI files (position 5). -/
def cliFlagP (f : GitDiff) : Bool :=
  !isTestFile f && !isDocFile f && !isConfigFileFB f && !isBuildFile f && isCLIFile f

/-- Bucket predicate: UI/component files (position 6). -/
def componentFlagP (f : GitDiff) : Bool :=
  !isTestFile f && !isDocFile f && !isConfigFileFB f && !isBuildFile f && !isCLIFile f
    && isComponentFile f

/-- Bucket predicate: API files (position 7). -/
def apiFlagP (f : GitDiff) : Bool :=
  !isTestFile f && !isDocFile f && !isConfigFileFB f && !isBuildFile f && !isCLIFile f
    && !isComponentFile f && isAPIFile f

/-- Bucket predicate: style files (position 8). -/
def styleFlagP (f : GitDiff) : Bool :=
  !isTestFile f && !isDocFile f && !isConfigFileFB f && !isBuildFile f && !isCLIFile f
    && !isComponentFile f && !isAPIFile f && isStyleFile f

/-- The `mainFiles` contribution of one file in the `forEach` chain. -/
def notableFile (f : GitDiff) : Option Str :=
  if isTestFile f then none
  else if isDocFile f then (if f.additions > 10 then some f.file else none)
  else if isConfigFileFB f then none
  else if isBuildFile f then none
  else if isCLIFile f then none
  else if isComponentFile f then
    (if f.additions + f.deletions > 20 then some f.file else none)
  else if isAPIFile f then some f.file
  else if isStyleFile f then none
  else if f.additions + f.deletions > 30 then some f.file
  else none

/-- The five possible normalized HTTP-verb tokens. -/
def verbsUpper : List Str := apiVerbs.map Prod.snd

/-- Well-formedness of a header's parts for the re-parse round trip: the
scope (when set) is non-empty and free of the closing parenthesis, and
the subject is non-empty, trim-stable and free of line terminators. -/
def WellFormedHeader (scope : Option Str) (subject : Str) : Prop :=
  (∀ s0, scope = some s0 → s0 ≠ [] ∧ ')' ∉ s0)
    ∧ subject ≠ [] ∧ trimStr subject = subject ∧ '\n' ∉ subject ∧ '\r' ∉ subject

/-! ## Concrete inputs used by counterexamples and witnesses -/

/-- A concrete one-file change set (a modified test file). -/
def exA : StagedChanges :=
  { files := [{ file := "src/a.test.ts".data, status := "M".data, additions := 5,
                deletions := 1, diff := [] }],
    summary := "1 file(s) changed, 5 insertions(+), 1 deletions(-)".data,
    hasChanges := true }

/-- A UI file whose diff adds six distinct markup tags. -/
def exC5 : StagedChanges :=
  { files := [{ file := "a.tsx".data, status := "M".data, additions := 6, deletions := 0,
                diff := ("+<Ab x\n+<Cd x\n+<Ef x\n+<Gh x\n+<Ij x\n+<Kl x").data }],
    summary := "1 file(s) changed, 6 insertions(+), 0 deletions(-)".data,
    hasChanges := true }

/-- Two permuted two-file change sets (API file and large other file). -/
def exPermA : StagedChanges :=
  { files := [{ file := "src/api/users/route.ts".data, status := "M".data, additions := 30,
                deletions := 2, diff := [] },
              { file := "src/core/engine.ts".data, status := "M".data, additions := 40,
                deletions := 1, diff := [] }],
    summary := "2 file(s) changed, 70 insertions(+), 3 deletions(-)".data,
    hasChanges := true }

/-- `exPermA` with its files in the opposite order. -/
def exPermB : StagedChanges :=
  { files := [{ file := "src/core/engine.ts".data, status := "M".data, additions := 40,
                deletions := 1, diff := [] },
              { file := "src/api/users/route.ts".data, status := "M".data, additions := 30,
                deletions := 2, diff := [] }],
    summary := "2 file(s) changed, 70 insertions(+), 3 deletions(-)".data,
    hasChanges := true }

/-- A concrete `simple-git` status with two staged files. -/
def stEx : GitStatus :=
  { staged := ["a.ts".data, "b.ts".data],
    files := [{ path := "a.ts".data, index := "M".data },
              { path := "b.ts".data, index := "A".data }] }

/-- A concrete per-file diff query that fails on the first file. -/
def diffEx : Str → Except Str Str := fun f =>
  if f = "a.ts".data then Except.error ("boom".data)
  else Except.ok ("+x\n-y\n+z".data)

/-- A concrete cache entry whose summary will not match `exA`. -/
def cEx : CacheEntry :=
  { suggestions := [], changesSummary := "2 file(s) changed, 0 insertions(+), 0 deletions(-)".data,
    timestamp := 1000 }

/-! ## General lemmas -/

/-- The heuristic path emits a one-element list by construction. -/
@[simp] theorem generateFallbackSuggestions_length (changes : StagedChanges) :
    (generateFallbackSuggestions changes).length = 1 := rfl

/-- `List.any` only depends on membership, hence is permutation
invariant. -/
theorem permAny {α : Type} (p : α → Bool) {l₁ l₂ : List α} (h : l₁.Perm l₂) :
    l₁.any p = l₂.any p := by
  cases h1 : l₂.any p with
  | true =>
    rw [List.any_eq_true] at h1 ⊢
    obtain ⟨x, hx, hp⟩ := h1
    exact ⟨x, h.mem_iff.mpr hx, hp⟩
  | false =>
    rw [List.any_eq_false] at h1 ⊢
    intro x hx
    exact h1 x (h.mem_iff.mp hx)

/-! ## C1, C2: orchestrator totality and the heuristic guarantee -/

/-- C1: for every non-empty ChangeSet the orchestrator
`generateCommitMessage` returns at least one suggestion, and every
generative-path failure — model-load failure (`loadOk = false`), call
failure or call timeout (`call = .error e`, the timeout rejection being
one such error), and an empty parse — yields the heuristic fallback
rather than propagating: the orchestrator is a total function into
suggestion lists (the catch converts every generative error). -/
theorem orchestrator_total_fallback (changes : StagedChanges) (skipAI loadOk : Bool)
    (call : Except Str Str) (hne : changes.files ≠ []) :
    1 ≤ (generateCommitMessage changes skipAI loadOk call).length
    ∧ (skipAI = false → loadOk = false →
        generateCommitMessage changes skipAI loadOk call = generateFallbackSuggestions changes)
    ∧ (∀ e, skipAI = false → call = Except.error e →
        generateCommitMessage changes skipAI loadOk call = generateFallbackSuggestions changes)
    ∧ (∀ t, skipAI = false → call = Except.ok t → parseAIResponse t = [] →
        generateCommitMessage changes skipAI loadOk call = generateFallbackSuggestions changes)
    ∧ (skipAI = true →
        generateCommitMessage changes skipAI loadOk call = generateFallbackSuggestions changes) := by
  refine ⟨?_, ?_, ?_, ?_, ?_⟩
  · cases skipAI with
    | true => simp [generateCommitMessage]
    | false =>
      cases loadOk with
      | false => simp [generateCommitMessage, generativePath]
      | true =>
        cases call with
        | error e => simp [generateCommitMessage, generativePath]
        | ok t =>
          by_cases hp : (parseAIResponse t).length > 0
          · have h1 : generateCommitMessage changes false true (Except.ok t)
                = parseAIResponse t := by
              simp [generateCommitMessage, generativePath, hp]
            rw [h1]
            omega
          · simp [generateCommitMessage, generativePath, hp]
  · intro hs hl
    subst hs; subst hl
    simp [generateCommitMessage, generativePath]
  · intro e hs hc
    subst hs; subst hc
    cases loadOk with
    | false => simp [generateCommitMessage, generativePath]
    | true => simp [generateCommitMessage, generativePath]
  · intro t hs hc hp
    subst hs; subst hc
    cases loadOk with
    | false => simp [generateCommitMessage, generativePath]
    | true => simp [generateCommitMessage, generativePath, hp]
  · intro hs
    subst hs
    simp [generateCommitMessage]

/-- Witness for C1 at a concrete change set, a load failure and a timeout
error. -/
theorem orchestrator_total_fallback_witness :
    exA.files ≠ []
    ∧ 1 ≤ (generateCommitMessage exA false false (Except.ok [])).length
    ∧ generateCommitMessage exA false false (Except.ok [])
        = generateFallbackSuggestions exA
    ∧ generateCommitMessage exA false true
        (Except.error ("AI generation timed out".data))
        = generateFallbackSuggestions exA :=
  ⟨by decide,
   (orchestrator_total_fallback exA false false (Except.ok []) (by decide)).1,
   (orchestrator_total_fallback exA false false (Except.ok []) (by decide)).2.1 rfl rfl,
   (orchestrator_total_fallback exA false true
      (Except.error ("AI generation timed out".data)) (by decide)).2.2.1
     ("AI generation timed out".data) rfl rfl⟩

/-- C2: the Heuristic Summarizer returns exactly one suggestion whose
confidence is exactly `0.85`, and a generative-call timeout produces
exactly this heuristic result. -/
theorem heuristic_exactly_one (changes : StagedChanges) (hne : changes.files ≠ []) :
    (generateFallbackSuggestions changes).length = 1
    ∧ (∀ s ∈ generateFallbackSuggestions changes, s.confidence = (85 : ℚ)/100)
    ∧ generateCommitMessage changes false true
        (Except.error ("AI generation timed out".data))
      = generateFallbackSuggestions changes := by
  refine ⟨rfl, ?_, rfl⟩
  intro s hs
  simp only [generateFallbackSuggestions, List.mem_singleton] at hs
  subst hs
  rfl

/-- Witness for C2 at a concrete change set. -/
theorem heuristic_exactly_one_witness :
    exA.files ≠ []
    ∧ (generateFallbackSuggestions exA).length = 1
    ∧ generateCommitMessage exA false true
        (Except.error ("AI generation timed out".data))
      = generateFallbackSuggestions exA :=
  ⟨by decide, (heuristic_exactly_one exA (by decide)).1,
   (heuristic_exactly_one exA (by decide)).2.2⟩

/-! ## C10: the heuristic path never marks a suggestion breaking -/

/-- C10: the heuristic fallback path always produces its single
suggestion with `breaking = false`, and its `fullMessage` is the
template rendered without the breaking marker (`renderFullMessage` with
`brk = false` inserts no `!`). -/
theorem fallback_never_breaking (changes : StagedChanges) :
    ∃ s, generateFallbackSuggestions changes = [s]
      ∧ s.breaking = false
      ∧ s.fullMessage = renderFullMessage s.type s.scope false s.subject s.body := by
  refine ⟨_, rfl, rfl, ?_⟩
  simp [generateFallbackSuggestions, renderFullMessage, renderHeader]

/-! ## C9: result-cache validity -/

/-- C9: cached suggestions are reused only when the stored summary
equals the current change summary and the entry is strictly younger than
five minutes (and non-empty); an entry failing the summary or age
condition (or a missing/unreadable cache) leads to freshly generated
suggestions. -/
theorem cache_validity (stored : Option CacheEntry) (now : Int) (changes : StagedChanges)
    (skipAI loadOk : Bool) (call : Except Str Str) :
    ((commitSuggestionSource stored now changes skipAI loadOk call).2 = true →
      ∃ c, stored = some c ∧ c.changesSummary = changes.summary
        ∧ now - c.timestamp < 5 * 60 * 1000 ∧ 0 < c.suggestions.length
        ∧ (commitSuggestionSource stored now changes skipAI loadOk call).1 = c.suggestions)
    ∧ (∀ c, stored = some c →
        c.changesSummary ≠ changes.summary ∨ ¬(now - c.timestamp < 5 * 60 * 1000) →
        commitSuggestionSource stored now changes skipAI loadOk call
          = (generateCommitMessage changes skipAI loadOk call, false))
    ∧ (stored = none →
        commitSuggestionSource stored now changes skipAI loadOk call
          = (generateCommitMessage changes skipAI loadOk call, false)) := by
  cases stored with
  | none =>
    refine ⟨?_, ?_, fun _ => rfl⟩
    · intro h
      simp [commitSuggestionSource, loadCache] at h
    · intro c hc
      exact absurd hc (by simp)
  | some c =>
    by_cases hage : now - c.timestamp < 5 * 60 * 1000
    · by_cases heq : c.changesSummary = changes.summary
      · by_cases hlen : 0 < c.suggestions.length
        · have hage5 : now - c.timestamp < 300000 := by omega
          have hrun : commitSuggestionSource (some c) now changes skipAI loadOk call
              = (c.suggestions, true) := by
            simp [commitSuggestionSource, loadCache, hage5, heq, hlen]
          refine ⟨fun _ => ⟨c, rfl, heq, hage, hlen, by rw [hrun]⟩, ?_, by intro h; simp at h⟩
          intro c0 hc0 hbad
          injection hc0 with hc0
          subst hc0
          rcases hbad with hbad | hbad
          · exact absurd heq hbad
          · exact absurd hage hbad
        · have hage5 : now - c.timestamp < 300000 := by omega
          have hrun : commitSuggestionSource (some c) now changes skipAI loadOk call
              = (generateCommitMessage changes skipAI loadOk call, false) := by
            simp [commitSuggestionSource, loadCache, hage5, heq, hlen]
          refine ⟨?_, ?_, by intro h; simp at h⟩
          · intro h
            simp [hrun] at h
          · intro c0 hc0 _
            cases hc0
            exact hrun
      · have hage5 : now - c.timestamp < 300000 := by omega
        have hrun : commitSuggestionSource (some c) now changes skipAI loadOk call
            = (generateCommitMessage changes skipAI loadOk call, false) := by
          simp [commitSuggestionSource, loadCache, hage5, heq]
        refine ⟨?_, ?_, by intro h; simp at h⟩
        · intro h
          simp [hrun] at h
        · intro c0 hc0 _
          cases hc0
          exact hrun
    · have hage5 : ¬(now - c.timestamp < 300000) := by omega
      have hrun : commitSuggestionSource (some c) now changes skipAI loadOk call
          = (generateCommitMessage changes skipAI loadOk call, false) := by
        simp [commitSuggestionSource, loadCache, hage5]
      refine ⟨?_, ?_, by intro h; simp at h⟩
      · intro h
        simp [hrun] at h
      · intro c0 hc0 _
        cases hc0
        exact hrun

/-! ## C3: classifier precedence -/

/-- C3: the decision chain of `analyzeChangesForFallback` applies its
rules in fixed first-match precedence — tests, docs without UI/API,
config with at most three files, build/CLI, style without UI/API, API
(`feat` exactly when total additions exceed 50, else `fix`), components,
and the final additions-vs-deletions fallback (more than twice the
deletions gives `feat`/"features", more than twice the additions gives
`refactor`/"refactoring", otherwise `fix`/"fixes"). -/
theorem classifier_precedence (changes : StagedChanges) :
    ((fallbackFlags changes).hasTests = true →
      (analyzeChangesForFallback changes).type = CommitType.test
        ∧ (analyzeChangesForFallback changes).category = "testing".data)
    ∧ ((fallbackFlags changes).hasTests = false →
       ((fallbackFlags changes).hasDocs && !(fallbackFlags changes).hasComponents
          && !(fallbackFlags changes).hasAPI) = true →
      (analyzeChangesForFallback changes).type = CommitType.docs
        ∧ (analyzeChangesForFallback changes).category = "documentation".data)
    ∧ ((fallbackFlags changes).hasTests = false →
       ((fallbackFlags changes).hasDocs && !(fallbackFlags changes).hasComponents
          && !(fallbackFlags changes).hasAPI) = false →
       ((fallbackFlags changes).hasConfig && changes.files.length ≤ 3) = true →
      (analyzeChangesForFallback changes).type = CommitType.chore
        ∧ (analyzeChangesForFallback changes).category = "configuration".data)
    ∧ ((fallbackFlags changes).hasTests = false →
       ((fallbackFlags changes).hasDocs && !(fallbackFlags changes).hasComponents
          && !(fallbackFlags changes).hasAPI) = false →
       ((fallbackFlags changes).hasConfig && changes.files.length ≤ 3) = false →
       ((fallbackFlags changes).hasBuild || (fallbackFlags changes).hasCLI) = true →
      (analyzeChangesForFallback changes).type = CommitType.build
        ∧ (analyzeChangesForFallback changes).category
            = (if (fallbackFlags changes).hasCLI then "cli".data else "build".data))
    ∧ ((fallbackFlags changes).hasTests = false →
       ((fallbackFlags changes).hasDocs && !(fallbackFlags changes).hasComponents
          && !(fallbackFlags changes).hasAPI) = false →
       ((fallbackFlags changes).hasConfig && changes.files.length ≤ 3) = false →
       ((fallbackFlags changes).hasBuild || (fallbackFlags changes).hasCLI) = false →
       ((fallbackFlags changes).hasStyles && !(fallbackFlags changes).hasComponents
          && !(fallbackFlags changes).hasAPI) = true →
      (analyzeChangesForFallback changes).type = CommitType.style
        ∧ (analyzeChangesForFallback changes).category = "styling".data)
    ∧ ((fallbackFlags changes).hasTests = false →
       ((fallbackFlags changes).hasDocs && !(fallbackFlags changes).hasComponents
          && !(fallbackFlags changes).hasAPI) = false →
       ((fallbackFlags changes).hasConfig && changes.files.length ≤ 3) = false →
       ((fallbackFlags changes).hasBuild || (fallbackFlags changes).hasCLI) = false →
       ((fallbackFlags changes).hasStyles && !(fallbackFlags changes).hasComponents
          && !(fallbackFlags changes).hasAPI) = false →
       (fallbackFlags changes).hasAPI = true →
      (analyzeChangesForFallback changes).type
          = (if totalAdditions changes > 50 then CommitType.feat else CommitType.fix)
        ∧ (analyzeChangesForFallback changes).category = "API".data)
    ∧ ((fallbackFlags changes).hasTests = false →
       ((fallbackFlags changes).hasDocs && !(fallbackFlags changes).hasComponents
          && !(fallbackFlags changes).hasAPI) = false →
       ((fallbackFlags changes).hasConfig && changes.files.length ≤ 3) = false →
       ((fallbackFlags changes).hasBuild || (fallbackFlags changes).hasCLI) = false →
       ((fallbackFlags changes).hasStyles && !(fallbackFlags changes).hasComponents
          && !(fallbackFlags changes).hasAPI) = false →
       (fallbackFlags changes).hasAPI = false →
       (fallbackFlags changes).hasComponents = true →
      (analyzeChangesForFallback changes).type
          = (if totalAdditions changes > 50 then CommitType.feat else CommitType.fix)
        ∧ (analyzeChangesForFallback changes).category = "components".data)
    ∧ ((fallbackFlags changes).hasTests = false →
       (fallbackFlags changes).hasDocs = false →
       ((fallbackFlags changes).hasConfig && changes.files.length ≤ 3) = false →
       (fallbackFlags changes).hasBuild = false →
       (fallbackFlags changes).hasCLI = false →
       (fallbackFlags changes).hasStyles = false →
       (fallbackFlags changes).hasAPI = false →
       (fallbackFlags changes).hasComponents = false →
      (analyzeChangesForFallback changes).type
          = (if totalAdditions changes > totalDeletions changes * 2 then CommitType.feat
             else if totalDeletions changes > totalAdditions changes * 2 then
               CommitType.refactor
             else CommitType.fix)
        ∧ (analyzeChangesForFallback changes).category
            = (if totalAdditions changes > totalDeletions changes * 2 then "features".data
               else if totalDeletions changes > totalAdditions changes * 2 then
                 "refactoring".data
               else "fixes".data)) := by
  refine ⟨?_, ?_, ?_, ?_, ?_, ?_, ?_, ?_⟩
  · intro h1
    constructor <;>
      simp [analyzeChangesForFallback, fallbackTypeCategory, h1]
  · intro h1 h2
    constructor <;>
      simp [analyzeChangesForFallback, fallbackTypeCategory, h1, h2]
  · intro h1 h2 h3
    constructor <;> simp [analyzeChangesForFallback, fallbackTypeCategory, h1, h2, h3]
  · intro h1 h2 h3 h4
    constructor <;> simp [analyzeChangesForFallback, fallbackTypeCategory, h1, h2, h3, h4]
  · intro h1 h2 h3 h4 h5
    constructor <;>
      simp [analyzeChangesForFallback, fallbackTypeCategory, h1, h2, h3, h4, h5]
  · intro h1 h2 h3 h4 h5 h6
    constructor <;>
      simp [analyzeChangesForFallback, fallbackTypeCategory, h1, h2, h3, h4, h5, h6]
  · intro h1 h2 h3 h4 h5 h6 h7
    constructor <;>
      simp [analyzeChangesForFallback, fallbackTypeCategory, h1, h2, h3, h4, h5, h6, h7]
  · intro h1 h2 h3 h4 h5 h6 h7 h8
    constructor <;>
      simp [analyzeChangesForFallback, fallbackTypeCategory, h1, h2, h3, h4, h5, h6, h7,
        h8] <;>
      (repeat' split) <;> rfl

/-- Witness for C3: the concrete test-file change set lands in rule 1. -/
theorem classifier_precedence_witness :
    (fallbackFlags exA).hasTests = true
    ∧ (analyzeChangesForFallback exA).type = CommitType.test
    ∧ (analyzeChangesForFallback exA).category = "testing".data :=
  ⟨by decide, ((classifier_precedence exA).1 (by decide)).1,
   ((classifier_precedence exA).1 (by decide)).2⟩

/-! ## C4: the response parser is bounded, total and prefix-faithful -/

/-- C4: `parseAIResponse` (a total function — the embedding throws
nowhere) returns between 0 and 2 suggestions, and they are exactly the
first at-most-two closed suggestions of the scan in discovery order
(`parseAIResponseAll`). -/
theorem parse_bounded (text : Str) :
    (parseAIResponse text).length ≤ 2
    ∧ parseAIResponse text = (parseAIResponseAll text).take 2
    ∧ parseAIResponse text <+: parseAIResponseAll text := by
  refine ⟨?_, rfl, List.take_prefix 2 _⟩
  rw [parseAIResponse, List.length_take]
  exact min_le_left _ _

/-! ## C5: deduplication and capping of the extracted signal sets -/

/-- Elements of `dedupAux` come from the scanned list. -/
theorem dedupAux_mem {x : Str} {l : List Str} :
    ∀ {seen : List Str}, x ∈ dedupAux seen l → x ∈ l := by
  induction l with
  | nil => intro seen h; simp [dedupAux] at h
  | cons y t ih =>
    intro seen h
    simp only [dedupAux] at h
    split at h
    · exact List.mem_cons_of_mem _ (ih h)
    · rcases List.mem_cons.mp h with h | h
      · exact h ▸ List.mem_cons_self _ _
      · exact List.mem_cons_of_mem _ (ih h)

/-- Elements of `dedupAux` avoid the already-seen accumulator. -/
theorem dedupAux_not_mem_seen {x : Str} {l : List Str} :
    ∀ {seen : List Str}, x ∈ dedupAux seen l → x ∉ seen := by
  induction l with
  | nil => intro seen h; simp [dedupAux] at h
  | cons y t ih =>
    intro seen h
    simp only [dedupAux] at h
    split at h
    · exact ih h
    · next hy =>
      rcases List.mem_cons.mp h with h | h
      · subst h; exact hy
      · intro hx
        exact ih h (List.mem_cons_of_mem _ hx)

/-- `dedupAux` produces no duplicates. -/
theorem dedupAux_nodup (l : List Str) : ∀ (seen : List Str), (dedupAux seen l).Nodup := by
  induction l with
  | nil => intro seen; simp [dedupAux]
  | cons y t ih =>
    intro seen
    simp only [dedupAux]
    split
    · exact ih seen
    · refine List.nodup_cons.mpr ⟨?_, ih (y :: seen)⟩
      intro hy
      exact dedupAux_not_mem_seen hy (List.mem_cons_self _ _)

/-- The JavaScript-`Set` spread is duplicate-free. -/
theorem jsSetDedup_nodup (l : List Str) : (jsSetDedup l).Nodup := dedupAux_nodup l []

/-- The JavaScript-`Set` spread only reorders/keeps elements. -/
theorem jsSetDedup_subset {x : Str} {l : List Str} (h : x ∈ jsSetDedup l) : x ∈ l :=
  dedupAux_mem h

/-- A property of every possible position match holds of a successful
left-to-right scan. -/
theorem scanFirst_some {α : Type} {f : Str → Option α} {P : α → Prop}
    (hf : ∀ s v, f s = some v → P v) :
    ∀ {s : Str} {v : α}, scanFirst f s = some v → P v := by
  intro s
  induction s with
  | nil => intro v h; exact hf [] v h
  | cons c t ih =>
    intro v h
    simp only [scanFirst] at h
    split at h
    · next heq => cases h; exact hf _ _ heq
    · exact ih h

/-- A verb found by `findVerb` is one of the listed upper-cased verbs. -/
theorem findVerb_mem : ∀ (vs : List (Str × Str)) (rest : Str) (v : Str),
    findVerb vs rest = some v → v ∈ vs.map Prod.snd := by
  intro vs
  induction vs with
  | nil => intro rest v h; simp [findVerb] at h
  | cons p t ih =>
    intro rest v h
    obtain ⟨lw, up⟩ := p
    simp only [findVerb] at h
    split at h
    · cases h; simp
    · exact List.mem_cons_of_mem _ (ih rest v h)

/-- A position match of the API-verb pattern is a normalized verb. -/
theorem matchApiVerbAt_mem {s v : Str} (h : matchApiVerbAt s = some v) : v ∈ verbsUpper := by
  unfold matchApiVerbAt at h
  split at h
  · exact findVerb_mem _ _ _ h
  · cases h

/-- Everything `apiDetect` pushes is a normalized verb. -/
theorem apiDetect_mem {fn content v : Str} (h : v ∈ apiDetect fn content) : v ∈ verbsUpper := by
  unfold apiDetect at h
  split at h
  · cases hscan : scanFirst matchApiVerbAt content with
    | none => rw [hscan] at h; simp at h
    | some w =>
      rw [hscan] at h
      simp only [Option.toList_some, List.mem_singleton] at h
      subst h
      exact scanFirst_some (fun s v hv => matchApiVerbAt_mem hv) hscan
  · simp at h

/-- One diff line only extends `apiChanges` with normalized verbs. -/
theorem processLine_api {fn : Str} {acc : DiffSignalsRaw} {line x : Str}
    (h : x ∈ (processLine fn acc line).apiChanges) :
    x ∈ acc.apiChanges ∨ x ∈ verbsUpper := by
  unfold processLine at h
  split at h
  · exact Or.inl h
  · rcases List.mem_append.mp h with h | h
    · exact Or.inl h
    · exact Or.inr (apiDetect_mem h)

/-- The per-file line fold only extends `apiChanges` with normalized
verbs. -/
theorem foldLines_api {fn x : Str} : ∀ (lines : List Str) (acc : DiffSignalsRaw),
    x ∈ ((lines.foldl (processLine fn) acc).apiChanges) →
    x ∈ acc.apiChanges ∨ x ∈ verbsUpper := by
  intro lines
  induction lines with
  | nil => intro acc h; exact Or.inl h
  | cons l t ih =>
    intro acc h
    rcases ih _ h with h | h
    · exact processLine_api h
    · exact Or.inr h

/-- Raw HTTP-verb signals are normalized verbs. -/
theorem rawSignals_api {changes : StagedChanges} {x : Str}
    (h : x ∈ (rawSignals changes).apiChanges) : x ∈ verbsUpper := by
  unfold rawSignals at h
  have key : ∀ (files : List GitDiff) (acc : DiffSignalsRaw),
      x ∈ ((files.foldl (fun a f => (splitLines f.diff).foldl (processLine f.file) a)
        acc).apiChanges) →
      x ∈ acc.apiChanges ∨ x ∈ verbsUpper := by
    intro files
    induction files with
    | nil => intro acc h; exact Or.inl h
    | cons f t ih =>
      intro acc h
      rcases ih _ h with h | h
      · exact foldLines_api _ _ h
      · exact Or.inr h
  rcases key changes.files emptySignals h with h | h
  · simp [emptySignals] at h
  · exact h

/-- A duplicate-free list of normalized verbs has at most five elements. -/
theorem verbs_len_le (l : List Str) (hsub : ∀ x ∈ l, x ∈ verbsUpper) (hnd : l.Nodup) :
    l.length ≤ 5 := by
  have h5 : verbsUpper.length = 5 := rfl
  have := (hnd.subperm hsub).length_le
  omega

/-- C5 counterexample: a single UI file adding six distinct markup tags
produces a `uiChanges` set of six elements — the UI-tag set is capped at
10 in the source, not at 5 as claimed. -/
theorem signal_caps_counterexample :
    ¬((analyzeDiffsInDepth exC5).uiChanges.length ≤ 5) := by decide

/-- C5 amended: every signal set of `analyzeDiffsInDepth` is
deduplicated before capping and bounded: at most 5 for function names,
component names, dependency roots and config keys, at most 3 for
type/class names, at most 10 (not 5) for UI-tag tokens, and the
HTTP-verb set (deduplicated, with no explicit cap in the source) is
bounded by the five possible verbs. -/
theorem signal_caps (changes : StagedChanges) :
    ((analyzeDiffsInDepth changes).newFunctions.length ≤ 5
      ∧ (analyzeDiffsInDepth changes).newFunctions.Nodup)
    ∧ ((analyzeDiffsInDepth changes).newClasses.length ≤ 3
      ∧ (analyzeDiffsInDepth changes).newClasses.Nodup)
    ∧ ((analyzeDiffsInDepth changes).newComponents.length ≤ 5
      ∧ (analyzeDiffsInDepth changes).newComponents.Nodup)
    ∧ ((analyzeDiffsInDepth changes).newImports.length ≤ 5
      ∧ (analyzeDiffsInDepth changes).newImports.Nodup)
    ∧ ((analyzeDiffsInDepth changes).configChanges.length ≤ 5
      ∧ (analyzeDiffsInDepth changes).configChanges.Nodup)
    ∧ ((analyzeDiffsInDepth changes).uiChanges.length ≤ 10
      ∧ (analyzeDiffsInDepth changes).uiChanges.Nodup)
    ∧ ((analyzeDiffsInDepth changes).apiChanges.length ≤ 5
      ∧ (analyzeDiffsInDepth changes).apiChanges.Nodup) := by
  have htake : ∀ (l : List Str) (n : Nat), ((jsSetDedup l).take n).length ≤ n := by
    intro l n
    rw [List.length_take]
    exact min_le_left _ _
  have hnd : ∀ (l : List Str) (n : Nat), ((jsSetDedup l).take n).Nodup := by
    intro l n
    exact (jsSetDedup_nodup l).sublist (List.take_sublist n _)
  refine ⟨⟨htake _ 5, hnd _ 5⟩, ⟨htake _ 3, hnd _ 3⟩, ⟨htake _ 5, hnd _ 5⟩,
    ⟨htake _ 5, hnd _ 5⟩, ⟨htake _ 5, hnd _ 5⟩, ⟨htake _ 10, hnd _ 10⟩, ?_,
    jsSetDedup_nodup _⟩
  exact verbs_len_le _ (fun x hx => rawSignals_api (jsSetDedup_subset hx))
    (jsSetDedup_nodup _)

/-! ## C7: classifier permutation invariance -/

/-- One loop step: the `hasTests` flag absorbs its bucket predicate. -/
theorem pf_hasTests (s : FallbackFlags) (f : GitDiff) :
    (processFallbackFile s f).hasTests = (s.hasTests || testFlagP f) := by
  unfold processFallbackFile testFlagP
  split_ifs <;> simp_all

/-- One loop step: the `hasDocs` flag absorbs its bucket predicate. -/
theorem pf_hasDocs (s : FallbackFlags) (f : GitDiff) :
    (processFallbackFile s f).hasDocs = (s.hasDocs || docsFlagP f) := by
  unfold processFallbackFile docsFlagP
  split_ifs <;> simp_all

/-- One loop step: the `hasConfig` flag absorbs its bucket predicate. -/
theorem pf_hasConfig (s : FallbackFlags) (f : GitDiff) :
    (processFallbackFile s f).hasConfig = (s.hasConfig || configFlagP f) := by
  unfold processFallbackFile configFlagP
  split_ifs <;> simp_all

/-- One loop step: the `hasBuild` flag absorbs its bucket predicate. -/
theorem pf_hasBuild (s : FallbackFlags) (f : GitDiff) :
    (processFallbackFile s f).hasBuild = (s.hasBuild || buildFlagP f) := by
  unfold processFallbackFile buildFlagP
  split_ifs <;> simp_all

/-- One loop step: the `hasCLI` flag absorbs its bucket predicate. -/
theorem pf_hasCLI (s : FallbackFlags) (f : GitDiff) :
    (processFallbackFile s f).hasCLI = (s.hasCLI || cliFlagP f) := by
  unfold processFallbackFile cliFlagP
  split_ifs <;> simp_all

/-- One loop step: the `hasComponents` flag absorbs its bucket
predicate. -/
theorem pf_hasComponents (s : FallbackFlags) (f : GitDiff) :
    (processFallbackFile s f).hasComponents = (s.hasComponents || componentFlagP f) := by
  unfold processFallbackFile componentFlagP
  split_ifs <;> simp_all

/-- One loop step: the `hasAPI` flag absorbs its bucket predicate. -/
theorem pf_hasAPI (s : FallbackFlags) (f : GitDiff) :
    (processFallbackFile s f).hasAPI = (s.hasAPI || apiFlagP f) := by
  unfold processFallbackFile apiFlagP
  split_ifs <;> simp_all

/-- One loop step: the `hasStyles` flag absorbs its bucket predicate. -/
theorem pf_hasStyles (s : FallbackFlags) (f : GitDiff) :
    (processFallbackFile s f).hasStyles = (s.hasStyles || styleFlagP f) := by
  unfold processFallbackFile styleFlagP
  split_ifs <;> simp_all

/-- One loop step: `mainFiles` is extended by the per-file contribution. -/
theorem pf_mainFiles (s : FallbackFlags) (f : GitDiff) :
    (processFallbackFile s f).mainFiles = s.mainFiles ++ (notableFile f).toList := by
  unfold processFallbackFile
  split_ifs <;> simp_all [notableFile] <;> rw [if_neg (by omega)] <;> rfl

/-- The whole `forEach` is an order-insensitive aggregate: each flag is
an `any` over its bucket predicate and `mainFiles` a `filterMap`. -/
theorem foldl_flags (l : List GitDiff) (s : FallbackFlags) :
    l.foldl processFallbackFile s =
      { hasTests := s.hasTests || l.any testFlagP,
        hasDocs := s.hasDocs || l.any docsFlagP,
        hasConfig := s.hasConfig || l.any configFlagP,
        hasBuild := s.hasBuild || l.any buildFlagP,
        hasComponents := s.hasComponents || l.any componentFlagP,
        hasAPI := s.hasAPI || l.any apiFlagP,
        hasStyles := s.hasStyles || l.any styleFlagP,
        hasCLI := s.hasCLI || l.any cliFlagP,
        mainFiles := s.mainFiles ++ l.filterMap notableFile } := by
  induction l generalizing s with
  | nil => simp
  | cons f t ih =>
    rw [List.foldl_cons, ih]
    cases hnf : notableFile f <;>
      simp [pf_hasTests, pf_hasDocs, pf_hasConfig, pf_hasBuild, pf_hasCLI, pf_hasComponents,
        pf_hasAPI, pf_hasStyles, pf_mainFiles, hnf, List.any_cons, List.filterMap_cons,
        Bool.or_assoc, List.append_assoc]

/-- `fallbackFlags` as closed-form aggregates. -/
theorem fallbackFlags_eq (c : StagedChanges) :
    fallbackFlags c =
      { hasTests := c.files.any testFlagP, hasDocs := c.files.any docsFlagP,
        hasConfig := c.files.any configFlagP, hasBuild := c.files.any buildFlagP,
        hasComponents := c.files.any componentFlagP, hasAPI := c.files.any apiFlagP,
        hasStyles := c.files.any styleFlagP, hasCLI := c.files.any cliFlagP,
        mainFiles := c.files.filterMap notableFile } := by
  rw [fallbackFlags, foldl_flags]
  rfl

/-- C7: permuting the file list leaves the classifier's type and
category unchanged and permutes `notableFiles` correspondingly (equal as
sets; the source accumulates them in iteration order). -/
theorem classifier_perm_invariant (c₁ c₂ : StagedChanges) (h : c₁.files.Perm c₂.files) :
    (analyzeChangesForFallback c₁).type = (analyzeChangesForFallback c₂).type
    ∧ (analyzeChangesForFallback c₁).category = (analyzeChangesForFallback c₂).category
    ∧ (analyzeChangesForFallback c₁).mainFiles.Perm
        (analyzeChangesForFallback c₂).mainFiles := by
  have hA : totalAdditions c₁ = totalAdditions c₂ := (h.map GitDiff.additions).sum_eq
  have hD : totalDeletions c₁ = totalDeletions c₂ := (h.map GitDiff.deletions).sum_eq
  have hTC : fallbackTypeCategory c₁ = fallbackTypeCategory c₂ := by
    unfold fallbackTypeCategory
    rw [fallbackFlags_eq c₁, fallbackFlags_eq c₂]
    simp only [permAny testFlagP h, permAny docsFlagP h, permAny configFlagP h,
      permAny buildFlagP h, permAny componentFlagP h, permAny apiFlagP h,
      permAny styleFlagP h, permAny cliFlagP h, h.length_eq, hA, hD]
  have hMF : (fallbackFlags c₁).mainFiles.Perm (fallbackFlags c₂).mainFiles := by
    rw [fallbackFlags_eq c₁, fallbackFlags_eq c₂]
    exact h.filterMap notableFile
  exact ⟨congrArg Prod.fst hTC, congrArg Prod.snd hTC, hMF⟩

/-- Witness for C7 at two concrete permuted change sets. -/
theorem classifier_perm_invariant_witness :
    exPermA.files.Perm exPermB.files
    ∧ (analyzeChangesForFallback exPermA).type = (analyzeChangesForFallback exPermB).type
    ∧ (analyzeChangesForFallback exPermA).category
        = (analyzeChangesForFallback exPermB).category
    ∧ (analyzeChangesForFallback exPermA).mainFiles.Perm
        (analyzeChangesForFallback exPermB).mainFiles :=
  ⟨by decide, (classifier_perm_invariant exPermA exPermB (by decide)).1,
   (classifier_perm_invariant exPermA exPermB (by decide)).2.1,
   (classifier_perm_invariant exPermA exPermB (by decide)).2.2⟩

/-! ## C8: staged-changes invariant and degraded diff retrieval -/

/-- When every staged file appears in the status file list (the
`simple-git` contract: `staged` is derived from `files`), the per-file
loop emits exactly one entry per staged file — a failed diff query
degrades to the placeholder instead of dropping the file. -/
theorem collectDiffs_length (st : GitStatus) (diffOf : Str → Except Str Str) :
    ∀ (staged : List Str), (∀ f ∈ staged, (findStatusFile st.files f).isSome = true) →
    (collectDiffs st diffOf staged).length = staged.length := by
  intro staged
  induction staged with
  | nil => intro _; rfl
  | cons file rest ih =>
    intro hwf
    have hrest := ih fun f hf => hwf f (List.mem_cons_of_mem _ hf)
    have hhd := hwf file (List.mem_cons_self _ _)
    cases hd : diffOf file with
    | ok d => simp [collectDiffs, hd, hrest]
    | error e =>
      cases hfs : findStatusFile st.files file with
      | none => rw [hfs] at hhd; simp at hhd
      | some fs => simp [collectDiffs, hd, hfs, hrest]

/-- A staged file whose diff query fails and which appears in the status
list yields a zero-stat placeholder entry in the collected list. -/
theorem collectDiffs_placeholder (st : GitStatus) (diffOf : Str → Except Str Str) :
    ∀ (staged : List Str), ∀ f ∈ staged, ∀ e, diffOf f = Except.error e →
    ∀ fs, findStatusFile st.files f = some fs →
    ∃ d ∈ collectDiffs st diffOf staged, d.file = f ∧ d.additions = 0 ∧ d.deletions = 0 := by
  intro staged
  induction staged with
  | nil => intro f hf; simp at hf
  | cons file rest ih =>
    intro f hf e he fs hfs
    rcases List.mem_cons.mp hf with hf | hf
    · subst hf
      refine ⟨{ file := f, status := if fs.index.isEmpty then "M".data else fs.index,
                additions := 0, deletions := 0,
                diff := "// Unable to retrieve diff for ".data ++ f }, ?_, rfl, rfl, rfl⟩
      simp [collectDiffs, he, hfs]
    · obtain ⟨d, hd, hprops⟩ := ih f hf e he fs hfs
      exact ⟨d, List.mem_append_right _ hd, hprops⟩

/-- C8: over a backend whose status succeeds and satisfies the
`simple-git` contract (every staged path occurs in the status file
list), `getStagedChanges` returns a `StagedChanges` with
`hasChanges = (files.length > 0)`, and each staged file whose diff query
failed is present as a zero-stat placeholder entry rather than dropped
or aborting the query. -/
theorem staged_changes_invariant (st : GitStatus) (diffOf : Str → Except Str Str)
    (hwf : ∀ f ∈ st.staged, (findStatusFile st.files f).isSome = true) :
    ∃ r, getStagedChanges (Except.ok st) diffOf = Except.ok r
      ∧ r.hasChanges = decide (0 < r.files.length)
      ∧ ∀ f ∈ st.staged, ∀ e, diffOf f = Except.error e →
          ∃ d ∈ r.files, d.file = f ∧ d.additions = 0 ∧ d.deletions = 0 := by
  by_cases hs : st.staged.length = 0
  · refine ⟨{ files := [], summary := "No staged changes found".data, hasChanges := false },
      ?_, rfl, ?_⟩
    · simp [getStagedChanges, hs]
    · intro f hf e he
      rw [List.length_eq_zero] at hs
      rw [hs] at hf
      simp at hf
  · refine ⟨{ files := collectDiffs st diffOf st.staged,
              summary := natToStr (collectDiffs st diffOf st.staged).length
                ++ " file(s) changed, ".data
                ++ natToStr (((collectDiffs st diffOf st.staged).map GitDiff.additions).sum)
                ++ " insertions(+), ".data
                ++ natToStr (((collectDiffs st diffOf st.staged).map GitDiff.deletions).sum)
                ++ " deletions(-)".data,
              hasChanges := true }, ?_, ?_, ?_⟩
    · simp [getStagedChanges, hs]
    · have hlen := collectDiffs_length st diffOf st.staged hwf
      have hpos : 0 < st.staged.length := Nat.pos_of_ne_zero hs
      simp only [hlen]
      simp [hpos]
    · intro f hf e he
      have hsome := hwf f hf
      cases hfs : findStatusFile st.files f with
      | none => rw [hfs] at hsome; simp at hsome
      | some fs => exact collectDiffs_placeholder st diffOf st.staged f hf e he fs hfs

/-- Witness for C8: two staged files, the first failing its diff query. -/
theorem staged_changes_invariant_witness :
    (∀ f ∈ stEx.staged, (findStatusFile stEx.files f).isSome = true)
    ∧ ∃ r, getStagedChanges (Except.ok stEx) diffEx = Except.ok r
        ∧ r.hasChanges = decide (0 < r.files.length)
        ∧ ∀ f ∈ stEx.staged, ∀ e, diffEx f = Except.error e →
            ∃ d ∈ r.files, d.file = f ∧ d.additions = 0 ∧ d.deletions = 0 :=
  ⟨by decide, staged_changes_invariant stEx diffEx (by decide)⟩

/-! ## C9 witness -/

/-- Witness for C9: a concrete cache entry with mismatching summary is a
miss and fresh suggestions are generated. -/
theorem cache_validity_witness :
    (cEx.changesSummary ≠ exA.summary ∨ ¬((2000 : ℤ) - cEx.timestamp < 5 * 60 * 1000))
    ∧ commitSuggestionSource (some cEx) 2000 exA true true (Except.ok [])
        = (generateCommitMessage exA true true (Except.ok []), false) :=
  ⟨Or.inl (by decide),
   (cache_validity (some cEx) 2000 exA true true (Except.ok [])).2.1 cEx rfl
     (Or.inl (by decide))⟩

/-! ## C6: the message template and the header-grammar round trip -/

/-- Dropping a prefix only shortens a list. -/
theorem length_dropWhile_le (p : Char → Bool) (l : Str) :
    (l.dropWhile p).length ≤ l.length := by
  induction l with
  | nil => simp
  | cons a t ih =>
    rw [List.dropWhile_cons]
    split
    · exact ih.trans (by simp)
    · simp

/-- Trimming only shortens a string. -/
theorem trimStr_length_le (s : Str) : (trimStr s).length ≤ s.length := by
  unfold trimStr
  calc ((s.dropWhile isWS).reverse.dropWhile isWS).reverse.length
      = ((s.dropWhile isWS).reverse.dropWhile isWS).length := by simp
    _ ≤ (s.dropWhile isWS).reverse.length := length_dropWhile_le _ _
    _ = (s.dropWhile isWS).length := by simp
    _ ≤ s.length := length_dropWhile_le _ _

/-- Trimming a whitespace-headed string drops that head. -/
theorem trimStr_ws_cons (c : Char) (s : Str) (hc : isWS c = true) :
    trimStr (c :: s) = trimStr s := by
  unfold trimStr
  rw [List.dropWhile_cons, if_pos hc]

/-- A non-empty trim-stable string does not start with whitespace. -/
theorem dropWhile_eq_self_of_trimStr (s : Str) (h : trimStr s = s) (hne : s ≠ []) :
    s.dropWhile isWS = s := by
  cases s with
  | nil => simp
  | cons c t =>
    by_cases hc : isWS c
    · exfalso
      have h1 : trimStr (c :: t) = trimStr t := trimStr_ws_cons c t hc
      rw [h] at h1
      have h2 : (trimStr t).length ≤ t.length := trimStr_length_le t
      have h3 := congrArg List.length h1
      simp only [List.length_cons] at h3
      omega
    · rw [List.dropWhile_cons, if_neg hc]

/-- The greedy search for the first closing parenthesis after a
parenthesis-free scope lands exactly at the rendered one. -/
theorem findIdx?_scope (p : Char → Bool) (s rest : Str) (c : Char) (hc : p c = true)
    (hs : ∀ x ∈ s, p x = false) : ∀ (i : Nat),
    List.findIdx? p (s ++ c :: rest) i = some (s.length + i) := by
  induction s with
  | nil =>
    intro i
    simp [List.findIdx?_cons, hc]
  | cons a t ih =>
    intro i
    have ha := hs a (List.mem_cons_self _ _)
    rw [List.cons_append, List.findIdx?_cons, if_neg (by simp [ha])]
    rw [ih (fun x hx => hs x (List.mem_cons_of_mem _ hx)) (i + 1)]
    congr 1
    simp only [List.length_cons]
    omega

/-- `take` across an appended marker. -/
theorem take_append_cons (s rest : Str) (c : Char) :
    (s ++ c :: rest).take s.length = s := List.take_left s _

/-- `drop` across an appended marker. -/
theorem drop_append_cons (s rest : Str) (c : Char) :
    (s ++ c :: rest).drop (s.length + 1) = rest := by
  rw [show s ++ c :: rest = (s ++ [c]) ++ rest by simp]
  rw [show s.length + 1 = (s ++ [c]).length by simp]
  exact List.drop_left _ _

/-- The type alternation recognises each rendered type and returns the
remainder (no spelling is a case-insensitive prefix of another). -/
theorem findTypePrefix_render (t : CommitType) (rest : Str) :
    findTypePrefix commitTypeStrs (t.render ++ rest) = some (t, rest) := by
  cases t <;> rfl

/-- The subject part round-trips on a rendered, well-formed subject. -/
theorem headerSubject_render (t : CommitType) (scope : Option Str) (hasB : Bool)
    (subject : Str) (h1 : subject ≠ []) (h2 : trimStr subject = subject)
    (h3 : '\n' ∉ subject) (h4 : '\r' ∉ subject) :
    headerSubject t scope hasB (' ' :: subject) = some ⟨t, scope, hasB, subject⟩ := by
  have hdw : subject.dropWhile isWS = subject := dropWhile_eq_self_of_trimStr subject h2 h1
  have htr : trimStr (' ' :: subject) = subject := by
    rw [trimStr_ws_cons _ _ (by decide), h2]
  have hany : (subject.any fun c => decide (c = '\n') || decide (c = '\r')) = false := by
    rw [List.any_eq_false]
    intro x hx
    have hx1 : x ≠ '\n' := fun hh => h3 (hh ▸ hx)
    have hx2 : x ≠ '\r' := fun hh => h4 (hh ▸ hx)
    simp [hx1, hx2]
  cases subject with
  | nil => exact absurd rfl h1
  | cons c cs =>
    have hr2 : (' ' :: c :: cs).dropWhile isWS = c :: cs := by
      rw [List.dropWhile_cons, if_pos (by decide), hdw]
    unfold headerSubject
    rw [hr2]
    simp [hany, htr]

/-- The `(!)?:\s*(.+)$` tail round-trips on a rendered, well-formed
subject, with and without the breaking marker. -/
theorem matchHeaderTail_render (t : CommitType) (scope : Option Str) (subject : Str)
    (h1 : subject ≠ []) (h2 : trimStr subject = subject)
    (h3 : '\n' ∉ subject) (h4 : '\r' ∉ subject) :
    matchHeaderTail t scope (':' :: ' ' :: subject) = some ⟨t, scope, false, subject⟩
    ∧ matchHeaderTail t scope ('!' :: ':' :: ' ' :: subject)
        = some ⟨t, scope, true, subject⟩ :=
  ⟨headerSubject_render t scope false subject h1 h2 h3 h4,
   headerSubject_render t scope true subject h1 h2 h3 h4⟩

/-- The full header grammar round-trips on a rendered, well-formed
header, recovering the type, scope, breaking flag and subject. -/
theorem matchHeader_render (t : CommitType) (scope : Option Str) (brk : Bool) (subject : Str)
    (hwf : WellFormedHeader scope subject) :
    matchHeader (renderHeader t scope brk subject) = some ⟨t, scope, brk, subject⟩ := by
  obtain ⟨hscope, h1, h2, h3, h4⟩ := hwf
  have htail := matchHeaderTail_render t scope subject h1 h2 h3 h4
  cases scope with
  | none =>
    cases brk with
    | false =>
      have hr : renderHeader t none false subject = t.render ++ (':' :: ' ' :: subject) := by
        simp [renderHeader]
      unfold matchHeader
      rw [hr, findTypePrefix_render]
      exact htail.1
    | true =>
      have hr : renderHeader t none true subject
          = t.render ++ ('!' :: ':' :: ' ' :: subject) := by
        simp [renderHeader]
      unfold matchHeader
      rw [hr, findTypePrefix_render]
      exact htail.2
  | some sc =>
    obtain ⟨hsne, hpar⟩ := hscope sc rfl
    have hse : sc.isEmpty = false := by
      cases sc with
      | nil => exact absurd rfl hsne
      | cons a b => rfl
    have hfi : ∀ (tail : Str), List.findIdx? (fun c => c = ')') (sc ++ ')' :: tail) 0
        = some sc.length := by
      intro tail
      rw [findIdx?_scope _ _ _ _ (by simp) (fun x hx => by
        simp only [decide_eq_false_iff_not]
        exact fun hh => hpar (hh ▸ hx)) 0]
      simp
    have hlen0 : ¬(sc.length = 0) := by
      simpa [List.length_eq_zero] using hsne
    cases brk with
    | false =>
      have hr : renderHeader t (some sc) false subject
          = t.render ++ ('(' :: (sc ++ ')' :: (':' :: ' ' :: subject))) := by
        simp [renderHeader, hse]
      unfold matchHeader
      rw [hr, findTypePrefix_render]
      simp only [hfi (':' :: ' ' :: subject), if_neg hlen0]
      rw [take_append_cons, drop_append_cons]
      exact htail.1
    | true =>
      have hr : renderHeader t (some sc) true subject
          = t.render ++ ('(' :: (sc ++ ')' :: ('!' :: ':' :: ' ' :: subject))) := by
        simp [renderHeader, hse]
      unfold matchHeader
      rw [hr, findTypePrefix_render]
      simp only [hfi ('!' :: ':' :: ' ' :: subject), if_neg hlen0]
      rw [take_append_cons, drop_append_cons]
      exact htail.2

/-- A suggestion closed by the parse loop carries the rendered template
as its `fullMessage`. -/
theorem closeCurrent_template {cur : OpenSuggestion} {bl : List Str}
    {sg : CommitMessageSuggestion} (h : closeCurrent cur bl = some sg) :
    sg.fullMessage = renderFullMessage sg.type sg.scope sg.breaking sg.subject sg.body := by
  unfold closeCurrent at h
  split at h
  · cases h
  · cases h
    rfl

/-- The parse loop preserves the template property of emitted
suggestions. -/
theorem parseStep_template {st : ParseState} {line : Str}
    (hst : ∀ s ∈ st.suggestions,
      s.fullMessage = renderFullMessage s.type s.scope s.breaking s.subject s.body) :
    ∀ s ∈ (parseStep st line).suggestions,
      s.fullMessage = renderFullMessage s.type s.scope s.breaking s.subject s.body := by
  intro s hs
  unfold parseStep parseStepTrimmed at hs
  split at hs
  · exact hst s hs
  · split at hs
    · split at hs
      · exact hst s hs
      · simp only [] at hs
        split at hs
        · split at hs
          · rename_i hclose
            rcases List.mem_append.mp hs with hs | hs
            · exact hst s hs
            · rw [List.mem_singleton] at hs
              subst hs
              exact closeCurrent_template hclose
          · exact hst s hs
        · exact hst s hs
    · split at hs
      · split at hs
        · exact hst s hs
        · exact hst s hs
      · exact hst s hs

/-- The scan fold preserves the template property. -/
theorem foldl_parseStep_template (lines : List Str) :
    ∀ (st : ParseState),
    (∀ s ∈ st.suggestions,
      s.fullMessage = renderFullMessage s.type s.scope s.breaking s.subject s.body) →
    ∀ s ∈ (lines.foldl parseStep st).suggestions,
      s.fullMessage = renderFullMessage s.type s.scope s.breaking s.subject s.body := by
  induction lines with
  | nil => intro st hst; exact hst
  | cons l t ih =>
    intro st hst
    exact ih _ (parseStep_template hst)

/-- C6: every suggestion the engine emits — from the generative response
parser and from the heuristic path — carries `fullMessage` equal to the
fixed template rendering of its `type`, `scope`, `breaking`, `subject`
and `body`, and the parser's header grammar recovers type, scope,
breaking flag and subject from any well-formed rendered header. -/
theorem template_and_roundtrip :
    (∀ text : Str, ∀ s ∈ parseAIResponse text,
      s.fullMessage = renderFullMessage s.type s.scope s.breaking s.subject s.body)
    ∧ (∀ changes : StagedChanges, ∀ s ∈ generateFallbackSuggestions changes,
      s.fullMessage = renderFullMessage s.type s.scope s.breaking s.subject s.body)
    ∧ (∀ (t : CommitType) (scope : Option Str) (brk : Bool) (subject : Str),
      WellFormedHeader scope subject →
      matchHeader (renderHeader t scope brk subject) = some ⟨t, scope, brk, subject⟩) := by
  refine ⟨?_, ?_, matchHeader_render⟩
  · intro text s hs
    have hs2 : s ∈ parseAIResponseAll text := List.take_subset 2 _ hs
    unfold parseAIResponseAll at hs2
    rcases List.mem_append.mp hs2 with hs2 | hs2
    · exact foldl_parseStep_template _ _ (by intro s hs; simp at hs) s hs2
    · split at hs2
      · next cur hcur =>
        cases hc : closeCurrent cur (ParseState.bodyLines _) with
        | none => rw [hc] at hs2; simp at hs2
        | some sg =>
          rw [hc] at hs2
          simp only [Option.toList_some, List.mem_singleton] at hs2
          subst hs2
          exact closeCurrent_template hc
      · simp at hs2
  · intro changes s hs
    simp only [generateFallbackSuggestions, List.mem_singleton] at hs
    subst hs
    simp [renderFullMessage, renderHeader]

/-- Witness for C6: the header grammar round-trips on a concrete
well-formed header with scope, breaking marker and subject. -/
theorem template_and_roundtrip_witness :
    WellFormedHeader (some ("api".data)) ("add users endpoint".data)
    ∧ matchHeader (renderHeader CommitType.feat (some ("api".data)) true
        ("add users endpoint".data))
      = some ⟨CommitType.feat, some ("api".data), true, "add users endpoint".data⟩
    ∧ ((generateFallbackSuggestions exA).headD
          ⟨CommitType.fix, none, [], none, false, [], 0⟩).fullMessage
        = renderFullMessage
            ((generateFallbackSuggestions exA).headD
              ⟨CommitType.fix, none, [], none, false, [], 0⟩).type
            ((generateFallbackSuggestions exA).headD
              ⟨CommitType.fix, none, [], none, false, [], 0⟩).scope
            ((generateFallbackSuggestions exA).headD
              ⟨CommitType.fix, none, [], none, false, [], 0⟩).breaking
            ((generateFallbackSuggestions exA).headD
              ⟨CommitType.fix, none, [], none, false, [], 0⟩).subject
            ((generateFallbackSuggestions exA).headD
              ⟨CommitType.fix, none, [], none, false, [], 0⟩).body :=
  ⟨⟨fun s0 hs0 => by cases hs0; exact ⟨by decide, by decide⟩, by decide, by decide,
     by decide, by decide⟩,
   template_and_roundtrip.2.2 CommitType.feat (some ("api".data)) true
     ("add users endpoint".data)
     ⟨fun s0 hs0 => by cases hs0; exact ⟨by decide, by decide⟩, by decide, by decide,
      by decide, by decide⟩,
   template_and_roundtrip.2.1 exA _ (List.mem_cons_self _ _)⟩

end GitScribe
